import Mathlib

/-!
# era_league: the roster page script (`src/scripts/main.js`)

A shallow embedding of the data transforms, the tab/panel state and the card
renderers of `main.js`, and theorems about them.

Modelling conventions.

* Numbers are IEEE 754 binary64 values (`JsNumber`): sums and quotients are
  rounded to nearest, ties to even, and overflow to an infinity.  The sign of
  zero is not kept: a negative zero is held as zero (`-0 === 0`, and sums and
  comparisons do not tell the two apart).
* A field that is absent or is not of the JavaScript type the code tests for
  is `none`.
* An element of `entries` that is `null` or not an object is `none`: the data
  transforms treat the two alike.  An element of `players` that is `null` is
  `none`; a primitive element other than the number zero behaves in every
  function as the empty object does and is `some {}`, and the number zero is
  not represented.
* JavaScript truthiness of a string-valued field is `truthy`: present and not
  the empty string.  Fields the code tests for truthiness only (`defaultGroup`,
  `name`, `photo`, `note`) and the ids hold strings when present, as the data
  model says.
* `state.activeGroup` is a plain object: `State.activeGroup` holds its own
  properties and `lookupGroup` adds the properties every plain object inherits
  from `Object.prototype`.
* A `TypeError` raised by a property access on `null` is `Except.error`.
-/

namespace EraLeague

/-! ## Numbers -/

/-- IEEE 754 binary64 value: `finite m e` is `m * 2 ^ e`, kept in the form
rounding produces (`2 ^ 52 ≤ |m| < 2 ^ 53` and `-1074 ≤ e ≤ 971`, or
`0 < |m| < 2 ^ 52` and `e = -1074`, or zero as `finite 0 0`). -/
inductive JsNumber where
  | finite (mantissa : Int) (exponent : Int)
  | posInf
  | negInf
  | nan
  deriving DecidableEq

/-- The exponent of the subnormal numbers. -/
def minExponent : Int := -1074

/-- The largest exponent of a 53-bit mantissa. -/
def maxExponent : Int := 971

/-- A bound `hi` with `n < 2 ^ hi`, found by doubling. -/
def log2Upper : Nat → Nat → Nat → Nat
  | 0, _, hi => hi
  | fuel + 1, n, hi => if n < 2 ^ hi then hi else log2Upper fuel n (2 * hi)

/-- Bisection for the exponent `k` with `2 ^ k ≤ n < 2 ^ (k + 1)`, between `lo`
and `hi`. -/
def log2Search : Nat → Nat → Nat → Nat → Nat
  | 0, _, lo, _ => lo
  | fuel + 1, n, lo, hi =>
    if hi ≤ lo + 1 then lo
    else if 2 ^ ((lo + hi) / 2) ≤ n then log2Search fuel n ((lo + hi) / 2) hi
    else log2Search fuel n lo ((lo + hi) / 2)

/-- The floor of the binary logarithm of a positive number. -/
def floorLog2 (n : Nat) : Nat := log2Search (n + 2) n 0 (log2Upper (n + 2) n 1)

/-- Numerator and denominator of `p / q / 2 ^ e`. -/
def scaleRatio (p q : Nat) (e : Int) : Nat × Nat :=
  if e ≤ 0 then (p * 2 ^ (-e).toNat, q) else (p, q * 2 ^ e.toNat)

/-- The binary64 value nearest to `± p / q` (`q` positive), ties to the even
mantissa; a magnitude that rounds to `2 ^ 1024` or more is an infinity. -/
def roundRatio (negative : Bool) (p q : Nat) : JsNumber :=
  if p = 0 then .finite 0 0
  else
    let l : Int := (floorLog2 p : Int) - (floorLog2 q : Int)
    let e0 : Int := l - 52
    let s0 := scaleRatio p q e0
    let e1 : Int := if s0.1 / s0.2 < 2 ^ 52 then e0 - 1 else e0
    let e : Int := max e1 minExponent
    let s := scaleRatio p q e
    let n0 := s.1 / s.2
    let r := s.1 % s.2
    let n := if 2 * r > s.2 ∨ (2 * r = s.2 ∧ n0 % 2 = 1) then n0 + 1 else n0
    let n2 : Nat := if n = 2 ^ 53 then 2 ^ 52 else n
    let e2 : Int := if n = 2 ^ 53 then e + 1 else e
    if n2 = 0 then .finite 0 0
    else if e2 > maxExponent then (if negative then .negInf else .posInf)
    else .finite (if negative then -(n2 : Int) else (n2 : Int)) e2

/-- The binary64 value nearest to `m * 2 ^ e`. -/
def roundDyadic (m : Int) (e : Int) : JsNumber :=
  if e ≥ 0 then roundRatio (decide (m < 0)) (m.natAbs * 2 ^ e.toNat) 1
  else roundRatio (decide (m < 0)) m.natAbs (2 ^ (-e).toNat)

/-- The number value of a non-negative integer, such as an array length. -/
def JsNumber.ofNat (n : Nat) : JsNumber := roundRatio false n 1

/-- The number `JSON.parse` gives for a literal whose decimal value is
`± p / q`. -/
def parseDecimal (negative : Bool) (p q : Nat) : JsNumber := roundRatio negative p q

/-- The `+` operator on numbers. -/
def jsAdd : JsNumber → JsNumber → JsNumber
  | .nan, _ => .nan
  | _, .nan => .nan
  | .posInf, .negInf => .nan
  | .negInf, .posInf => .nan
  | .posInf, _ => .posInf
  | _, .posInf => .posInf
  | .negInf, _ => .negInf
  | _, .negInf => .negInf
  | .finite m1 e1, .finite m2 e2 =>
    let e := min e1 e2
    roundDyadic (m1 * 2 ^ (e1 - e).toNat + m2 * 2 ^ (e2 - e).toNat) e

/-- The `/` operator on numbers (a zero divisor counts as `+0`). -/
def jsDiv : JsNumber → JsNumber → JsNumber
  | .nan, _ => .nan
  | _, .nan => .nan
  | .finite _ _, .posInf => .finite 0 0
  | .finite _ _, .negInf => .finite 0 0
  | .posInf, .finite m _ => if m < 0 then .negInf else .posInf
  | .negInf, .finite m _ => if m < 0 then .posInf else .negInf
  | .posInf, _ => .nan
  | .negInf, _ => .nan
  | .finite m1 e1, .finite m2 e2 =>
    if m2 = 0 then
      (if m1 = 0 then .nan else if m1 < 0 then .negInf else .posInf)
    else
      roundRatio (decide (m1 < 0) != decide (m2 < 0))
        (m1.natAbs * 2 ^ (e1 - e2).toNat) (m2.natAbs * 2 ^ (e2 - e1).toNat)

/-- The `>` operator on numbers. -/
def jsGt : JsNumber → JsNumber → Bool
  | .nan, _ => false
  | _, .nan => false
  | .posInf, .posInf => false
  | .posInf, _ => true
  | _, .posInf => false
  | .negInf, _ => false
  | _, .negInf => true
  | .finite m1 e1, .finite m2 e2 =>
    let e := min e1 e2
    decide (m1 * 2 ^ (e1 - e).toNat > m2 * 2 ^ (e2 - e).toNat)

/-- The shortest decimal digits `s` and the decimal exponent `n` with
`s * 10 ^ (n - k)` rounding to `x`, for the integer `big` that `x` denotes
(`k` the number of digits of `s`); of two candidates the nearer one. -/
def shortestDigits (x : JsNumber) (big : Nat) : Nat × Nat :=
  let n := (toString big).length
  let attempt (k : Nat) : Option (Nat × Nat) :=
    let u := 10 ^ (n - k)
    let low := big / u
    let okLow := decide (roundRatio false (low * u) 1 = x)
    let okHigh := decide (roundRatio false ((low + 1) * u) 1 = x)
    let dLow := big - low * u
    let dHigh := (low + 1) * u - big
    let pick : Option Nat :=
      if okLow ∧ okHigh then
        (if dLow < dHigh ∨ (dLow = dHigh ∧ low % 2 = 0) then some low else some (low + 1))
      else if okLow then some low
      else if okHigh then some (low + 1)
      else none
    pick.map (fun s => if s = 10 ^ k then (10 ^ (k - 1), n + 1) else (s, n))
  ((List.range 17).findSome? (fun i => attempt (i + 1))).getD (big, n)

/-- Model of `Number::toString` for a finite number of at least `10 ^ 21`:
exponential notation with the shortest digits. -/
def numberToStringLarge (x : JsNumber) (big : Nat) : String :=
  let sn := shortestDigits x big
  let digits := toString sn.1
  let exponent := "e+" ++ toString (sn.2 - 1)
  if digits.length = 1 then digits ++ exponent
  else (digits.take 1) ++ "." ++ (digits.drop 1) ++ exponent

/-! ## Data model -/

/-- Player object: `name`, `rating` (when it is a number) and `photo`. -/
structure Player where
  name : Option String := none
  rating : Option JsNumber := none
  photo : Option String := none
  deriving DecidableEq

/-- The `action` object of a CTA entry. -/
structure CtaAction where
  href : Option String := none
  label : Option String := none
  deriving DecidableEq

/-- The value of a `tier` property as `===` against a string sees it: a string,
or a value of another type (such as `null`), which equals no string. -/
inductive JsTier where
  | str (s : String)
  | other
  deriving DecidableEq

/-- Entry object.  `players` and `statuses` are `none` when the field is not an
array; `tier` is `none` when the object has no `tier` key. -/
structure Entry where
  type : Option String := none
  players : Option (List (Option Player)) := none
  note : Option String := none
  noteType : Option String := none
  statuses : Option (List String) := none
  tier : Option JsTier := none
  title : Option String := none
  description : Option String := none
  action : Option CtaAction := none
  deriving DecidableEq

/-- Group object of a division. -/
structure Group where
  id : String
  label : String
  deriving DecidableEq

/-- The `groupThresholds` object; `gold` is `none` when it is not a number. -/
structure Thresholds where
  gold : Option JsNumber := none
  deriving DecidableEq

/-- Division object.  `groups` and `entries` are `none` when the field is not an
array. -/
structure Division where
  id : String
  title : Option String := none
  subtitle : Option String := none
  defaultGroup : Option String := none
  groups : Option (List Group) := none
  groupThresholds : Option Thresholds := none
  entries : Option (List (Option Entry)) := none
  deriving DecidableEq

/-- The fetched league snapshot; `divisions` is `none` when it is not an array. -/
structure Snapshot where
  updatedAt : Option String := none
  divisions : Option (List Division) := none
  deriving DecidableEq

/-- The script's `state` object; `activeGroup` holds the own properties of the
plain object `state.activeGroup`. -/
structure State where
  data : Option Snapshot
  activeDivisionId : Option String
  activeGroup : String → Option String

/-- The value of a property read from `state.activeGroup`: `undefined`, a group
id stored there, or a member inherited from `Object.prototype` (a function or
object: truthy, and equal to no string). -/
inductive JsSelection where
  | undefined
  | str (s : String)
  | inherited
  deriving DecidableEq

/-- The property names every plain object inherits from `Object.prototype`
(ECMAScript, Annex B included). -/
def objectPrototypeKeys : List String :=
  ["constructor", "__defineGetter__", "__defineSetter__", "hasOwnProperty",
   "__lookupGetter__", "__lookupSetter__", "isPrototypeOf", "propertyIsEnumerable",
   "toString", "valueOf", "__proto__", "toLocaleString"]

/-- The property read `state.activeGroup[key]`. -/
def lookupGroup (activeGroup : String → Option String) (key : String) : JsSelection :=
  match activeGroup key with
  | some groupId => .str groupId
  | none => if key ∈ objectPrototypeKeys then .inherited else .undefined

/-- JavaScript truthiness of a value read from `state.activeGroup`. -/
def JsSelection.truthy : JsSelection → Bool
  | .undefined => false
  | .str s => s != ""
  | .inherited => true

/-- The state the script starts with: no data, no active division, and `{}`, an
object without own properties. -/
def initialState : State :=
  { data := none, activeDivisionId := none, activeGroup := fun _ => none }

/-- JavaScript truthiness of an optional string. -/
def truthy : Option String → Bool
  | none => false
  | some s => s != ""

/-! ## Data transforms -/

/-- The `computeAverageRating` function of `main.js`; `none` is `null`. -/
def computeAverageRating (players : List (Option Player)) : Option JsNumber :=
  let ratings : List JsNumber :=
    (players.map (fun player =>
      match player with
      | some p => p.rating
      | none => none)).filterMap id
  if ratings.length = 0 then none
  else if ratings.length = 1 then ratings.head?
  else
    let sum := ratings.foldl (fun total current => jsAdd total current) (JsNumber.ofNat 0)
    some (jsDiv sum (JsNumber.ofNat ratings.length))

/-- The `assignGroupTier` function of `main.js`. -/
def assignGroupTier (entry : Option Entry) (division : Option Division) : Option Entry :=
  match entry with
  | none => entry
  | some e =>
    if e.type = some "cta" then entry
    else
      match division with
      | none => entry
      | some d =>
        match d.groups with
        | none => entry
        | some gs =>
          if gs.length = 0 then entry
          else
            match d.groupThresholds with
            | none => entry
            | some thresholds =>
              match thresholds.gold with
              | none => entry
              | some goldThreshold =>
                let players := match e.players with
                  | some ps => ps
                  | none => []
                match computeAverageRating players with
                | none => entry
                | some average =>
                  let nextTier := if jsGt average goldThreshold then "gold" else "silver"
                  if e.tier = some (.str nextTier) then entry
                  else some { e with tier := some (.str nextTier) }

/-- The comparator handed to `groups.sort` in `buildGroupList`. -/
def groupCompare (a b : Group) : Int :=
  if a.id = "all" then -1
  else if b.id = "all" then 1
  else 0

/-- Insertion step of a stable sort: `x` stood before every element of the
(sorted) list and moves past exactly those it compares greater than. -/
def stableInsert {α : Type} (cmp : α → α → Int) (x : α) : List α → List α
  | [] => [x]
  | y :: ys => if cmp x y > 0 then y :: stableInsert cmp x ys else x :: y :: ys

/-- Model of `Array.prototype.sort(cmp)`, which ECMAScript specifies as a
stable sort: for a consistent comparator every stable sort gives this order.
For an inconsistent comparator the order is left to the engine and only the
elements are known; `groupCompare` is inconsistent exactly when two or more
groups have the id "all", and what is proved about the order of
`buildGroupList` assumes unique ids. -/
def stableSort {α : Type} (cmp : α → α → Int) : List α → List α
  | [] => []
  | x :: xs => stableInsert cmp x (stableSort cmp xs)

/-- The `buildGroupList` function of `main.js`. -/
def buildGroupList (division : Option Division) : List Group :=
  match division with
  | none => []
  | some d =>
    match d.groups with
    | none => []
    | some gs =>
      if gs.length = 0 then []
      else
        let groups := gs.map (fun group => ({ group with } : Group))
        let hasAll := groups.any (fun group => group.id == "all")
        if !hasAll then ({ id := "all", label := "Все" } : Group) :: groups
        else stableSort groupCompare groups

/-- The comparison `entry.tier === groupId` for a tier that is present. -/
def tierStrictEq : JsTier → JsSelection → Bool
  | .str t, .str g => t == g
  | _, _ => false

/-- The `matchesGroup` function of `main.js`; an entry that is `null` or not an
object is `none`. -/
def matchesGroup (entry : Option Entry) (groupId : JsSelection) (hasGroups : Bool) : Bool :=
  if !hasGroups || !groupId.truthy || groupId == .str "all" then true
  else
    match entry with
    | none => false
    | some e =>
      match e.tier with
      | none => true
      | some tier => if tier == .str "all" then true else tierStrictEq tier groupId

/-- Whether `entry && entry.type === 'cta'` holds. -/
def isCta (entry : Option Entry) : Bool :=
  match entry with
  | some e => e.type == some "cta"
  | none => false

/-- The `splitEntries` function of `main.js`: the pair `(teams, ctas)`. -/
def splitEntries (state : State) (division : Division) :
    List (Option Entry) × List (Option Entry) :=
  let entries := match division.entries with
    | some es => es
    | none => []
  let hasGroups := match division.groups with
    | some gs => decide (gs.length > 0)
    | none => false
  let activeGroup := lookupGroup state.activeGroup division.id
  let assignedEntries :=
    if hasGroups then entries.map (fun entry => assignGroupTier entry (some division))
    else entries
  let filtered := assignedEntries.filter (fun entry => matchesGroup entry activeGroup hasGroups)
  filtered.foldl
    (fun (acc : List (Option Entry) × List (Option Entry)) entry =>
      if isCta entry then (acc.1, acc.2 ++ [entry]) else (acc.1 ++ [entry], acc.2))
    ([], [])

/-! ## Tab and panel state -/

/-- The group a division is seeded with in `ensureActiveDivision`:
`division.defaultGroup || (groups.length ? groups[0].id : 'all')`. -/
def initialGroup (division : Division) : String :=
  match division.defaultGroup with
  | some g =>
    if g != "" then g
    else
      match division.groups with
      | some (first :: _) => first.id
      | _ => "all"
  | none =>
    match division.groups with
    | some (first :: _) => first.id
    | _ => "all"

/-- The assignment `state.activeGroup[divisionId] = groupId`: it stores an own
property, except under the key `__proto__`, whose inherited setter ignores a
string. -/
def setKey (activeGroup : String → Option String) (divisionId groupId : String) :
    String → Option String :=
  if divisionId = "__proto__" then activeGroup
  else fun key => if key = divisionId then some groupId else activeGroup key

/-- Body of the `forEach` of `ensureActiveDivision`: seed a division whose
selection is missing (falsy). -/
def seedGroup (activeGroup : String → Option String) (division : Division) :
    String → Option String :=
  if !(lookupGroup activeGroup division.id).truthy then
    setKey activeGroup division.id (initialGroup division)
  else activeGroup

/-- The `ensureActiveDivision` function of `main.js`. -/
def ensureActiveDivision (state : State) : State :=
  match state.data with
  | none => { state with activeDivisionId := none }
  | some data =>
    match data.divisions with
    | none => { state with activeDivisionId := none }
    | some [] => { state with activeDivisionId := none }
    | some (first :: rest) =>
      let divisions := first :: rest
      let activeDivisionId :=
        if !truthy state.activeDivisionId
            || !divisions.any (fun division => some division.id == state.activeDivisionId)
        then some first.id
        else state.activeDivisionId
      { state with
        activeDivisionId := activeDivisionId
        activeGroup := divisions.foldl seedGroup state.activeGroup }

/-- State effect of `setActiveDivision` (the re-rendering reads the state only). -/
def setActiveDivision (state : State) (divisionId : String) : State :=
  if state.activeDivisionId = some divisionId then state
  else { state with activeDivisionId := some divisionId }

/-- State effect of `setActiveGroup` (the re-rendering reads the state only). -/
def setActiveGroup (state : State) (divisionId groupId : String) : State :=
  if lookupGroup state.activeGroup divisionId = .str groupId then state
  else { state with activeGroup := setKey state.activeGroup divisionId groupId }

/-- State effect of `renderData`: store the snapshot, then `ensureActiveDivision`. -/
def renderData (state : State) (data : Snapshot) : State :=
  ensureActiveDivision { state with data := some data }

/-- The click handlers `renderDivisionTabs` registers, in tab order: the
argument each passes to `setActiveDivision`. -/
def divisionTabHandlers (state : State) : List String :=
  match state.data with
  | none => []
  | some data =>
    match data.divisions with
    | none => []
    | some divisions => divisions.map (fun division => division.id)

/-- The division `renderActiveDivisionPanel` renders, when it renders one. -/
def activeDivision (state : State) : Option Division :=
  if !truthy state.activeDivisionId then none
  else
    match state.data with
    | none => none
    | some data =>
      match data.divisions with
      | none => none
      | some divisions =>
        divisions.find? (fun item => some item.id == state.activeDivisionId)

/-- The click handlers `renderActiveDivisionPanel` registers on the group tabs,
in tab order: the arguments each passes to `setActiveGroup`. -/
def groupTabHandlers (state : State) : List (String × String) :=
  match activeDivision state with
  | none => []
  | some division =>
    (buildGroupList (some division)).map (fun group => (division.id, group.id))

/-- A user interaction with the rendered tabs: a click (or the click an arrow
key simulates) on the division tab or the group tab at a position. -/
inductive Click where
  | divisionTab (index : Nat)
  | groupTab (index : Nat)
  deriving DecidableEq

/-- The state after a click; a position with no tab changes nothing. -/
def click (state : State) : Click → State
  | .divisionTab index =>
    match (divisionTabHandlers state)[index]? with
    | some divisionId => setActiveDivision state divisionId
    | none => state
  | .groupTab index =>
    match (groupTabHandlers state)[index]? with
    | some (divisionId, groupId) => setActiveGroup state divisionId groupId
    | none => state

/-- The state after a sequence of clicks. -/
def clicks (state : State) (cs : List Click) : State :=
  cs.foldl click state

/-! ## DOM model and card renderers -/

/-- An element: tag, class, text content, attributes and child elements.
Event listeners are not part of the model. -/
inductive Node where
  | mk (tag : String) (className : String) (textContent : String)
      (attrs : List (String × String)) (children : List Node)

/-- The class attribute of an element. -/
def Node.className : Node → String
  | .mk _ c _ _ _ => c

/-- The text an element was created with. -/
def Node.textContent : Node → String
  | .mk _ _ t _ _ => t

/-- The attributes of an element. -/
def Node.attrs : Node → List (String × String)
  | .mk _ _ _ a _ => a

/-- The child elements, in document order. -/
def Node.children : Node → List Node
  | .mk _ _ _ _ cs => cs

/-- The `appendChild` method. -/
def Node.appendChild : Node → Node → Node
  | .mk t c x a cs, child => .mk t c x a (cs ++ [child])

/-- The effect of `classList.add` on an element. -/
def Node.addClass : Node → String → Node
  | .mk t c x a cs, name => .mk t (if c = "" then name else c ++ " " ++ name) x a cs

/-- The `createEl` helper: attributes whose value is null are not set. -/
def createEl (tag className textContent : String) (attrs : List (String × Option String)) :
    Node :=
  .mk tag className textContent
    (attrs.filterMap (fun kv => kv.2.map (fun value => (kv.1, value)))) []

/-- The `createIcon` helper, with its default class. -/
def createIcon (id : String) : Node :=
  .mk "svg" "icon" "" [("aria-hidden", "true")]
    [.mk "use" "" "" [("href", "images/icons.svg#" ++ id)] []]

/-- The `createPill` helper. -/
def createPill (text variant : String) : Node :=
  let className :=
    if variant != "" && variant != "neutral" then "pill pill--" ++ variant else "pill"
  createEl "span" className text []

/-- Model of `Number.prototype.toFixed(2)`: for a magnitude below `10 ^ 21` the
hundredth nearest to the stored binary value, the larger of two equally near,
sign first; otherwise the text `Number::toString` gives. -/
def toFixed2 : JsNumber → String
  | .nan => "NaN"
  | .posInf => "Infinity"
  | .negInf => "-Infinity"
  | .finite m e =>
    let a := m.natAbs
    let s := if m < 0 then "-" else ""
    if a * 2 ^ e.toNat ≥ 10 ^ 21 * 2 ^ (-e).toNat then
      s ++ numberToStringLarge (.finite a e) (a * 2 ^ e.toNat)
    else
      let n : Nat := (a * 2 ^ e.toNat * 200 + 2 ^ (-e).toNat) / (2 * 2 ^ (-e).toNat)
      let frac := n % 100
      s ++ toString (n / 100) ++ "." ++ (if frac < 10 then "0" else "") ++ toString frac

/-- The `formatRating` function of `main.js`; `none` is a value that is not a
number. -/
def formatRating (value : Option JsNumber) : String :=
  match value with
  | none => "—"
  | some .nan => "—"
  | some x => (toFixed2 x).replace "." ","

/-- The `renderPlayerTile` function of `main.js`. -/
def renderPlayerTile (player : Option Player) (index : Nat) : Node :=
  let tile := createEl "div" "player-tile" "" []
  let media := createEl "div" "player-tile__media" "" []
  let badge := (createPill ("Игрок " ++ toString (index + 1)) "neutral").addClass
    "player-tile__badge"
  let media := media.appendChild badge
  let playerName : Option String := match player with
    | some p => p.name
    | none => none
  let playerPhoto : Option String := match player with
    | some p => p.photo
    | none => none
  let media :=
    if truthy playerPhoto then
      let alt := if truthy playerName then playerName else some "Фото игрока"
      let photoButton := createEl "button" "player-tile__photo" ""
        [("type", some "button"), ("data-lightbox-trigger", some "true"),
         ("data-lightbox-src", playerPhoto), ("data-lightbox-alt", alt)]
      let img := createEl "img" "" ""
        [("src", playerPhoto), ("alt", alt), ("loading", some "lazy"),
         ("decoding", some "async"), ("width", some "480"), ("height", some "360")]
      media.appendChild (photoButton.appendChild img)
    else
      let placeholder := createEl "div" "player-tile__placeholder" "" []
      let placeholder := placeholder.appendChild (createIcon "icon-user")
      let placeholder := placeholder.appendChild (createEl "span" "" "Фото не загружено" [])
      media.appendChild placeholder
  let body := createEl "div" "player-tile__body" "" []
  let name := createEl "div" "player-tile__name"
    (if truthy playerName then playerName.getD "" else "—") []
  let ratingText := "Рейтинг: " ++ formatRating (match player with
    | some p => p.rating
    | none => none)
  let rating := createEl "div" "player-tile__meta" ratingText []
  let body := (body.appendChild name).appendChild rating
  (tile.appendChild media).appendChild body

/-- The `renderEmptyTile` function of `main.js`. -/
def renderEmptyTile (index : Nat) : Node :=
  let tile := createEl "div" "player-tile player-tile--empty" "" []
  let media := createEl "div" "player-tile__media" "" []
  let badge := (createPill ("Игрок " ++ toString (index + 1)) "neutral").addClass
    "player-tile__badge"
  let media := media.appendChild badge
  let placeholder := createEl "div" "player-tile__placeholder" "" []
  let placeholder := placeholder.appendChild (createIcon "icon-user")
  let placeholder := placeholder.appendChild (createEl "span" "" "Свободно" [])
  let media := media.appendChild placeholder
  let body := createEl "div" "player-tile__body" "" []
  let body := body.appendChild (createEl "div" "player-tile__name" "—" [])
  let body := body.appendChild (createEl "div" "player-tile__meta" "Рейтинг: —" [])
  (tile.appendChild media).appendChild body

/-- The `formatTeamTitle` function of `main.js`. -/
def formatTeamTitle (entry : Entry) (players : List (Option Player)) : String :=
  let names : List String :=
    (players.map (fun player =>
      match player with
      | some p => p.name
      | none => none)).filterMap (fun name => if truthy name then name else none)
  match names with
  | [first, second] => first ++ " — " ++ second
  | [only] => only ++ " — свободно"
  | _ => if entry.type = some "solo" then "Одиночная заявка" else "Заявка без имени"

/-- The hint `renderStatusFooter` adds when no player has a photo. -/
def missingPhotosHintText : String := "Чтобы добавить фото, напишите @Etokone."

/-- The call `players.every((player) => !player.photo)`: it stops at the first
player with a photo and raises a `TypeError` on reaching a player that is
`null` (`none`). -/
def everyLacksPhoto : List (Option Player) → Except String Bool
  | [] => .ok true
  | none :: _ => .error "TypeError"
  | some p :: rest => if truthy p.photo then .ok false else everyLacksPhoto rest

/-- The list `statuses` of `renderStatusFooter` at the test `!statuses.length`. -/
def footerStatuses (entry : Entry) (players : List (Option Player)) :
    Except String (List String) :=
  let statuses : List String := match entry.statuses with
    | some ss => ss.filter (fun status => status != "")
    | none => []
  (if players.length = 0 then (.ok false : Except String Bool) else everyLacksPhoto players).bind
    fun allMissing =>
      let missingPhotosHint : Option String :=
        if allMissing then some missingPhotosHintText else none
      match missingPhotosHint with
      | some hint => if !statuses.contains hint then .ok (statuses ++ [hint]) else .ok statuses
      | none => .ok statuses

/-- The `renderStatusFooter` function of `main.js`: `none` is the `null` it
returns for an empty list. -/
def renderStatusFooter (entry : Entry) (players : List (Option Player)) :
    Except String (Option Node) :=
  (footerStatuses entry players).bind fun statuses =>
    let footer := createEl "div" "team-card__footer" "" []
    let statusList := createEl "div" "status-list" "" []
    match statuses with
    | [] => .ok none
    | first :: more =>
      let primary := createEl "span" "status-list__item" first []
      let statusList := statusList.appendChild primary
      if more.length > 0 then
        let extra := createEl "div" "status-list__extra" "" [("aria-hidden", some "true")]
        let extra := more.foldl
          (fun node status =>
            node.appendChild (createEl "div" "status-list__extra-item" status []))
          extra
        let statusList := statusList.appendChild extra
        let toggle := createEl "button" "status-toggle" "Ещё"
          [("type", some "button"), ("aria-expanded", some "false")]
        .ok (some ((footer.appendChild statusList).appendChild toggle))
      else
        .ok (some (footer.appendChild statusList))

/-- The element `body` of `renderTeamCard`, with its tiles. -/
def teamCardBody (entry : Entry) (players : List (Option Player)) : Node :=
  let body := createEl "div" "team-card__body" "" []
  let body := players.enum.foldl
    (fun node ip => node.appendChild (renderPlayerTile ip.2 ip.1)) body
  let body :=
    if entry.type = some "solo" ∨ players.length = 1 then
      body.appendChild (renderEmptyTile (players.length + 1))
    else body
  if players.length = 0 then
    (body.appendChild (renderEmptyTile 1)).appendChild (renderEmptyTile 2)
  else body

/-- The element `header` of `renderTeamCard`, with title and badges. -/
def teamCardHeader (entry : Entry) (players : List (Option Player)) : Node :=
  let header := createEl "div" "team-card__header" "" []
  let title := createEl "h3" "team-card__title" (formatTeamTitle entry players) []
  let header := header.appendChild title
  let badgeList := createEl "div" "team-card__badges" "" []
  let badgeList : Node := match computeAverageRating players with
    | some average =>
      badgeList.appendChild (createPill ("СР. РЕЙТИНГ " ++ formatRating (some average)) "rating")
    | none => badgeList
  let badgeList : Node :=
    if entry.type = some "solo" then
      badgeList.appendChild (createPill "Одиночная заявка" "solo")
    else badgeList
  let badgeList : Node :=
    if truthy entry.note then
      let variant :=
        if entry.noteType = some "looking" then "looking"
        else if entry.noteType = some "solo" then "solo"
        else "neutral"
      if !(entry.type = some "solo" && variant = "solo") then
        badgeList.appendChild (createPill (entry.note.getD "") variant)
      else badgeList
    else badgeList
  if badgeList.children.length > 0 then header.appendChild badgeList else header

/-- The `renderTeamCard` function of `main.js`; a `TypeError` raised on the way
is `Except.error`. -/
def renderTeamCard (entry : Entry) : Except String Node :=
  let players := match entry.players with
    | some ps => ps.take 2
    | none => []
  let card := createEl "article" "team-card" ""
    [("data-state", some (if entry.type = some "solo" then "semi" else "full"))]
  let header := teamCardHeader entry players
  let body := teamCardBody entry players
  let card := (card.appendChild header).appendChild body
  (renderStatusFooter entry players).bind fun footer =>
    match footer with
    | some f => .ok (card.appendChild f)
    | none => .ok card

/-! ## Vocabulary of the specification -/

/-- The numeric ratings of the players, in order: players that are null or
have no numeric rating contribute nothing. -/
def definedRatings (players : List (Option Player)) : List JsNumber :=
  players.filterMap (fun player => player.bind Player.rating)

/-- Whether a player has a numeric rating. -/
def hasRating (player : Option Player) : Bool :=
  (player.bind Player.rating).isSome

/-- The mean in double arithmetic: the ratings are added left to right,
starting from 0, each sum rounded, and the total is divided by the count, the
quotient rounded. -/
def doubleMean (rs : List JsNumber) : JsNumber :=
  jsDiv (rs.foldl jsAdd (JsNumber.ofNat 0)) (JsNumber.ofNat rs.length)

/-- The exact value of a finite number. -/
def JsNumber.value : JsNumber → Option ℚ
  | .finite m e => some ((m : ℚ) * (2 : ℚ) ^ e)
  | _ => none

/-- The exact sum of finite numbers. -/
def exactSum : List JsNumber → Option ℚ
  | [] => some 0
  | r :: rs =>
    match r.value, exactSum rs with
    | some v, some total => some (v + total)
    | _, _ => none

/-- The arithmetic mean of finite numbers: their exact sum divided by their
count, without rounding. -/
def exactMean (rs : List JsNumber) : Option ℚ :=
  (exactSum rs).map (fun total => total / (rs.length : ℚ))

/-- The players array of an entry, empty when the field is not an array. -/
def playersOf (e : Entry) : List (Option Player) := e.players.getD []

/-- Whether the division declares at least one group. -/
def declaresGroups (d : Division) : Bool :=
  match d.groups with
  | some (_ :: _) => true
  | _ => false

/-- The declared groups of a division, none when the field is not an array. -/
def groupsOf (d : Division) : List Group := d.groups.getD []

/-- The numeric gold threshold of a division, when it has one. -/
def goldThreshold (d : Division) : Option JsNumber :=
  d.groupThresholds.bind Thresholds.gold

/-- Whether the entry is an object whose type is "cta". -/
def typeIsCta (entry : Option Entry) : Bool :=
  decide (entry.bind Entry.type = some "cta")

/-- The entries of the division after tier assignment (applied only when the
division declares groups), restricted to those that match the division's active
group, in entry order. -/
def filteredEntries (state : State) (division : Division) : List (Option Entry) :=
  let entries := division.entries.getD []
  let assigned :=
    if declaresGroups division then
      entries.map (fun entry => assignGroupTier entry (some division))
    else entries
  assigned.filter
    (fun entry =>
      matchesGroup entry (lookupGroup state.activeGroup division.id) (declaresGroups division))

/-- The divisions of a snapshot, none when the field is not an array. -/
def divisionsOf (data : Snapshot) : List Division := data.divisions.getD []

/-- The selection invariant of the UI state: the active division is a division
of the snapshot, and every division's selected group is "all" or one of the
groups that division declares. -/
def selectionValid (data : Snapshot) (s : State) : Prop :=
  (∃ d ∈ divisionsOf data, s.activeDivisionId = some d.id) ∧
  ∀ d ∈ divisionsOf data,
    lookupGroup s.activeGroup d.id = .str "all" ∨
      ∃ g ∈ groupsOf d, lookupGroup s.activeGroup d.id = .str g.id

instance (data : Snapshot) (s : State) : Decidable (selectionValid data s) := by
  unfold selectionValid
  infer_instance

/-- Every division's `defaultGroup`, when it is given and not empty, is "all" or
the id of a group the division declares. -/
def defaultGroupsDeclared (data : Snapshot) : Prop :=
  ∀ d ∈ divisionsOf data, ∀ g, d.defaultGroup = some g → g ≠ "" →
    g = "all" ∨ ∃ gr ∈ groupsOf d, gr.id = g

/-- Division ids are unique within the snapshot, as the data model requires. -/
def uniqueDivisionIds (data : Snapshot) : Prop :=
  ((divisionsOf data).map (fun d => d.id)).Nodup

instance (data : Snapshot) : Decidable (uniqueDivisionIds data) := by
  unfold uniqueDivisionIds
  infer_instance

/-- No division id is the name of a property that `state.activeGroup` inherits
from `Object.prototype`. -/
def noInheritedIds (data : Snapshot) : Prop :=
  ∀ d ∈ divisionsOf data, d.id ∉ objectPrototypeKeys

instance (data : Snapshot) : Decidable (noInheritedIds data) := by
  unfold noInheritedIds
  infer_instance

/-- Whether a player object has no photo (the test `!player.photo`). -/
def lacksPhoto (p : Player) : Bool := !truthy p.photo

/-- The status list the footer is to display: the entry's non-empty statuses in
their order, followed by the photo hint exactly when there is at least one
player, every player lacks a photo and the hint is not already listed. -/
def displayedStatuses (e : Entry) (ps : List Player) : List String :=
  let given := (e.statuses.getD []).filter (fun status => status != "")
  if ps ≠ [] ∧ (∀ p ∈ ps, lacksPhoto p = true) ∧ missingPhotosHintText ∉ given then
    given ++ [missingPhotosHintText]
  else given

/-- The first child element with the given class, when there is one. -/
def Node.childWithClass (n : Node) (className : String) : Option Node :=
  n.children.find? (fun child => child.className == className)

/-- The text of the inline item of a rendered footer. -/
def footerInlineItem (footer : Node) : Option String :=
  ((footer.childWithClass "status-list").bind
    (fun statusList => statusList.childWithClass "status-list__item")).map Node.textContent

/-- The texts of the items of the expandable list of a rendered footer, in
order; empty when the footer has no expandable list. -/
def footerExtraItems (footer : Node) : List String :=
  match (footer.childWithClass "status-list").bind
    (fun statusList => statusList.childWithClass "status-list__extra") with
  | some extra => extra.children.map Node.textContent
  | none => []

/-- The tiles in the body of a rendered team card, in order. -/
def cardTiles (card : Node) : List Node :=
  match card.childWithClass "team-card__body" with
  | some body => body.children
  | none => []

/-- The players `renderTeamCard` renders: at most the first two. -/
def cardPlayers (e : Entry) : List (Option Player) := (playersOf e).take 2

/-- Whether a tile is an empty (vacant) tile. -/
def isEmptyTile (tile : Node) : Bool := tile.className == "player-tile player-tile--empty"

/-- Whether a tile is a player tile. -/
def isPlayerTile (tile : Node) : Bool := tile.className == "player-tile"

/-! ## Example inputs -/

/-- A team of two players rated 4.2 and 4.8, whose average is 4.5. -/
def exampleTeam : Entry :=
  { players := some
      [some { name := some "Анна", rating := some (parseDecimal false 42 10) },
       some { name := some "Борис", rating := some (parseDecimal false 48 10) }] }

/-- A division with two groups and gold threshold 4, holding `exampleTeam` and a CTA. -/
def exampleDivision : Division :=
  { id := "mix"
    groups := some [⟨"gold", "Золото"⟩, ⟨"silver", "Серебро"⟩]
    groupThresholds := some { gold := some (parseDecimal false 4 1) }
    entries := some [some exampleTeam, some { type := some "cta" }] }

/-- A division that declares no groups. -/
def plainDivision : Division :=
  { id := "open", entries := some [some exampleTeam] }

/-- A snapshot of the two example divisions. -/
def exampleSnapshot : Snapshot :=
  { divisions := some [exampleDivision, plainDivision] }

/-- A state in which `exampleDivision` is active with the given group selected. -/
def exampleState (groupId : String) : State :=
  { data := some exampleSnapshot
    activeDivisionId := some "mix"
    activeGroup := fun key => if key = "mix" then some groupId else none }

/-- A snapshot whose only division names a default group it does not declare. -/
def strayDefaultSnapshot : Snapshot :=
  { divisions := some
      [{ id := "mix"
         defaultGroup := some "bronze"
         groups := some [⟨"gold", "Золото"⟩, ⟨"silver", "Серебро"⟩] }] }

/-- A snapshot whose only division has the id "constructor", the name of a
property every plain object inherits. -/
def inheritedIdSnapshot : Snapshot :=
  { divisions := some
      [{ id := "constructor"
         defaultGroup := some "gold"
         groups := some [⟨"gold", "Золото"⟩, ⟨"silver", "Серебро"⟩] }] }

/-- Two players rated 0.1 and 0.2. -/
def tenthsPlayers : List (Option Player) :=
  [some { rating := some (parseDecimal false 1 10) },
   some { rating := some (parseDecimal false 2 10) }]

/-- A team of two players rated 10000000000000000 and 1: both numbers are
binary64 values, their sum 10000000000000001 is not. -/
def largeTeam : Entry :=
  { players := some
      [some { name := some "Анна", rating := some (parseDecimal false 10000000000000000 1) },
       some { name := some "Борис", rating := some (parseDecimal false 1 1) }] }

/-- A division with two groups and gold threshold 5000000000000000, holding
`largeTeam`. -/
def largeDivision : Division :=
  { id := "mix"
    groups := some [⟨"gold", "Золото"⟩, ⟨"silver", "Серебро"⟩]
    groupThresholds := some { gold := some (parseDecimal false 5000000000000000 1) }
    entries := some [some largeTeam] }

/-- A team of two players rated 1.7 and 4.9, whose computed average is
3.3000000000000003. -/
def closeTeam : Entry :=
  { players := some
      [some { name := some "Анна", rating := some (parseDecimal false 17 10) },
       some { name := some "Борис", rating := some (parseDecimal false 49 10) }] }

/-- A division with two groups and gold threshold 3.3, holding `closeTeam` and a
CTA. -/
def closeDivision : Division :=
  { id := "mix"
    groups := some [⟨"gold", "Золото"⟩, ⟨"silver", "Серебро"⟩]
    groupThresholds := some { gold := some (parseDecimal false 33 10) }
    entries := some [some closeTeam, some { type := some "cta" }] }

/-- A state in which division "mix" has the given group selected. -/
def tabState (groupId : String) : State :=
  { data := none
    activeDivisionId := some "mix"
    activeGroup := fun key => if key = "mix" then some groupId else none }

/-- A solo entry that nevertheless lists two players. -/
def soloPair : Entry :=
  { type := some "solo"
    players := some [some { name := some "Анна" }, some { name := some "Борис" }] }

/-- A team entry with a single player and three statuses. -/
def singleWithStatuses : Entry :=
  { players := some [some { name := some "Анна" }]
    statuses := some ["A", "B", "C"] }

/-- The text of the badge of a tile: the pill in the tile's media element. -/
def tileBadge (tile : Node) : Option String :=
  ((tile.childWithClass "player-tile__media").bind
    (fun media => media.childWithClass "pill player-tile__badge")).map Node.textContent

/-- The text of the name line of a tile. -/
def tileName (tile : Node) : Option String :=
  ((tile.childWithClass "player-tile__body").bind
    (fun body => body.childWithClass "player-tile__name")).map Node.textContent

/-- The text of the rating line of a tile. -/
def tileRating (tile : Node) : Option String :=
  ((tile.childWithClass "player-tile__body").bind
    (fun body => body.childWithClass "player-tile__meta")).map Node.textContent

/-- Whether a tile shows the photo placeholder. -/
def tileHasPlaceholder (tile : Node) : Bool :=
  ((tile.childWithClass "player-tile__media").bind
    (fun media => media.childWithClass "player-tile__placeholder")).isSome

/-- The badge text the k-th tile of a card is to carry (k counted from 1). -/
def slotBadge (k : Nat) : String := "Игрок " ++ toString k

/-- A team entry with a single named player. -/
def singlePlayerEntry : Entry :=
  { players := some [some { name := some "Анна" }] }

/-- A team entry with an empty players array. -/
def noPlayersEntry : Entry :=
  { players := some [] }

/-- A team entry whose players array holds a single null element. -/
def nullPlayerEntry : Entry :=
  { players := some [none] }

/-- A team entry whose second player is null and whose first has no photo. -/
def trailingNullEntry : Entry :=
  { players := some [some { name := some "Анна" }, none] }

/-! ## Theorems: data transforms -/

theorem ratings_eq_definedRatings (players : List (Option Player)) :
    (players.map (fun player =>
      match player with
      | some p => p.rating
      | none => none)).filterMap id = definedRatings players := by
  unfold definedRatings
  rw [List.filterMap_map]
  congr 1
  funext player
  cases player <;> rfl

theorem computeAverageRating_eq (players : List (Option Player)) :
    computeAverageRating players =
      match definedRatings players with
      | [] => none
      | [r] => some r
      | rs => some (doubleMean rs) := by
  unfold computeAverageRating
  simp only [ratings_eq_definedRatings]
  rcases h : definedRatings players with _ | ⟨r, _ | ⟨r2, rs⟩⟩
  · simp
  · simp
  · simp [doubleMean]

theorem definedRatings_filter (players : List (Option Player)) :
    definedRatings (players.filter hasRating) = definedRatings players := by
  induction players with
  | nil => rfl
  | cons p ps ih =>
    rcases p with _ | ⟨n, r, ph⟩
    · simpa [definedRatings, hasRating, List.filter] using ih
    · cases r with
      | none => simpa [definedRatings, hasRating, List.filter] using ih
      | some r => simpa [definedRatings, hasRating, List.filter] using ih

theorem computeAverageRating_eq_none (players : List (Option Player)) :
    computeAverageRating players = none ↔ definedRatings players = [] := by
  rw [computeAverageRating_eq]
  rcases definedRatings players with _ | ⟨r, _ | ⟨r2, rs⟩⟩ <;> simp

theorem definedRatings_tenthsPlayers :
    definedRatings tenthsPlayers
      = [.finite 7205759403792794 (-56), .finite 7205759403792794 (-55)] := by
  decide

theorem computeAverageRating_tenthsPlayers :
    computeAverageRating tenthsPlayers = some (.finite 5404319552844596 (-55)) := by
  decide

/-- C1 as stated fails: for two players rated 0.1 and 0.2 the result is
0.15000000000000002 (5404319552844596 * 2 ^ -55), which is neither 3/20, the
mean of the two decimal ratings, nor the double nearest to 3/20, nor the
arithmetic mean of the two ratings as stored. -/
theorem computeAverageRating_not_exact_mean :
    computeAverageRating tenthsPlayers = some (.finite 5404319552844596 (-55)) ∧
    (computeAverageRating tenthsPlayers).bind JsNumber.value ≠ some (3 / 20) ∧
    computeAverageRating tenthsPlayers ≠ some (parseDecimal false 15 100) ∧
    (computeAverageRating tenthsPlayers).bind JsNumber.value
      ≠ exactMean (definedRatings tenthsPlayers) := by
  refine ⟨computeAverageRating_tenthsPlayers, ?_, ?_, ?_⟩
  · rw [computeAverageRating_tenthsPlayers]
    simp only [Option.bind, JsNumber.value]
    norm_num
  · rw [computeAverageRating_tenthsPlayers]
    decide
  · rw [computeAverageRating_tenthsPlayers, definedRatings_tenthsPlayers]
    simp only [Option.bind, JsNumber.value, exactMean, exactSum, Option.map, List.length_cons,
      List.length_nil]
    norm_num

/-- C1, amended: `computeAverageRating` returns null when no player has a numeric
rating, that rating itself when exactly one has, and otherwise the mean in
double arithmetic: the numeric ratings added left to right from 0, each sum
rounded to a double, divided by their count, the quotient rounded; players
without a numeric rating change neither the sum nor the divisor (dropping them
gives the same result). -/
theorem computeAverageRating_spec (players : List (Option Player)) :
    (computeAverageRating players =
      match definedRatings players with
      | [] => none
      | [r] => some r
      | rs => some (jsDiv (rs.foldl jsAdd (JsNumber.ofNat 0)) (JsNumber.ofNat rs.length))) ∧
    computeAverageRating (players.filter hasRating) = computeAverageRating players := by
  refine ⟨?_, ?_⟩
  · rw [computeAverageRating_eq]; rfl
  · rw [computeAverageRating_eq, computeAverageRating_eq, definedRatings_filter]

theorem assignGroupTier_eq (e : Entry) (d : Division) :
    assignGroupTier (some e) (some d) =
      match goldThreshold d, computeAverageRating (playersOf e) with
      | some gold, some average =>
        if e.type = some "cta" ∨ declaresGroups d = false then some e
        else some { e with
          tier := some (.str (if jsGt average gold then "gold" else "silver")) }
      | _, _ => some e := by
  unfold assignGroupTier goldThreshold declaresGroups playersOf
  by_cases hc : e.type = some "cta"
  · simp only [hc, if_true, true_or]
    split <;> rfl
  · simp only [hc, if_false, false_or]
    rcases hg : d.groups with _ | ⟨_ | ⟨g, gs⟩⟩
    · simp; split <;> rfl
    · simp; split <;> rfl
    · rcases ht : d.groupThresholds with _ | ⟨_ | gold⟩
      · simp
      · simp
      · have hpl : (match e.players with
            | some ps => ps
            | none => []) = e.players.getD [] := by cases e.players <;> rfl
        simp only [hpl]
        cases ha : computeAverageRating (e.players.getD []) with
        | none => simp
        | some average =>
          simp only [List.length_cons, Nat.succ_ne_zero, if_false, Option.bind]
          by_cases ht2 : e.tier
              = some (.str (if jsGt average gold then "gold" else "silver"))
          · simp only [ht2, if_true]
            simp
            cases e
            simp at ht2
            simp [ht2]
          · simp [ht2]

theorem assignGroupTier_largeTeam :
    assignGroupTier (some largeTeam) (some largeDivision)
      = some { largeTeam with tier := some (.str "silver") } := by
  decide

theorem definedRatings_largeTeam :
    definedRatings (playersOf largeTeam)
      = [.finite 5000000000000000 1, .finite 4503599627370496 (-52)] := by
  decide

theorem goldThreshold_largeDivision :
    goldThreshold largeDivision = some (.finite 5000000000000000 0) := by
  decide

theorem computeAverageRating_largeTeam :
    computeAverageRating (playersOf largeTeam) = some (.finite 5000000000000000 0) := by
  decide

theorem exactMean_largeTeam :
    (definedRatings (playersOf largeTeam)).map JsNumber.value
      = [some 10000000000000000, some 1] ∧
    exactMean (definedRatings (playersOf largeTeam)) = some (10000000000000001 / 2) ∧
    (goldThreshold largeDivision).bind JsNumber.value = some 5000000000000000 := by
  rw [definedRatings_largeTeam, goldThreshold_largeDivision]
  refine ⟨?_, ?_, ?_⟩
  · simp only [List.map, JsNumber.value]
    norm_num
  · simp only [exactMean, exactSum, JsNumber.value, Option.map, List.length_cons,
      List.length_nil]
    norm_num
  · simp only [Option.bind, JsNumber.value]
    norm_num

/-- For ratings 1.7 and 4.9 and gold threshold 3.3 the computed average is
3.3000000000000003 (7430939385161319 * 2 ^ -51), above the threshold as stored
(7430939385161318 * 2 ^ -51), and the tier assigned is "gold", although the
decimal ratings average to 3.3. -/
theorem assignGroupTier_closeTeam :
    computeAverageRating (playersOf closeTeam) = some (.finite 7430939385161319 (-51)) ∧
    goldThreshold closeDivision = some (.finite 7430939385161318 (-51)) ∧
    assignGroupTier (some closeTeam) (some closeDivision)
      = some { closeTeam with tier := some (.str "gold") } := by
  refine ⟨by decide, by decide, by decide⟩

/-- C2 as stated fails: for players rated 10000000000000000 and 1 (numbers the
data holds exactly) and gold threshold 5000000000000000 the mean of the two
ratings, 5000000000000000.5, is strictly greater than the threshold, yet the
tier assigned is "silver": the sum is rounded to 10000000000000000 and the
computed average equals the threshold. -/
theorem assignGroupTier_silver_above_threshold :
    assignGroupTier (some largeTeam) (some largeDivision)
      = some { largeTeam with tier := some (.str "silver") } ∧
    (definedRatings (playersOf largeTeam)).map JsNumber.value
      = [some 10000000000000000, some 1] ∧
    exactMean (definedRatings (playersOf largeTeam)) = some (10000000000000001 / 2) ∧
    (goldThreshold largeDivision).bind JsNumber.value = some 5000000000000000 ∧
    (5000000000000000 : ℚ) < 10000000000000001 / 2 ∧
    computeAverageRating (playersOf largeTeam) = goldThreshold largeDivision := by
  refine ⟨assignGroupTier_largeTeam, exactMean_largeTeam.1, exactMean_largeTeam.2.1,
    exactMean_largeTeam.2.2, by norm_num, ?_⟩
  rw [computeAverageRating_largeTeam, goldThreshold_largeDivision]

/-- C2, amended: `assignGroupTier` returns the entry unchanged when it is null
or a CTA, when there is no division or the division declares no groups, when the
division has no numeric gold threshold, or when no player rating is defined
(`computeAverageRating` returns null exactly then); otherwise it returns the
entry with only the tier replaced, by "gold" when the average
`computeAverageRating` returns, a rounded double, is strictly greater than the
threshold and by "silver" otherwise. -/
theorem assignGroupTier_spec (e : Entry) (d : Division) :
    (assignGroupTier (some e) (some d) =
      match goldThreshold d, computeAverageRating (playersOf e) with
      | some gold, some average =>
        if e.type = some "cta" ∨ declaresGroups d = false then some e
        else some { e with
          tier := some (.str (if jsGt average gold then "gold" else "silver")) }
      | _, _ => some e) ∧
    (computeAverageRating (playersOf e) = none ↔ definedRatings (playersOf e) = []) ∧
    assignGroupTier none (some d) = none ∧
    assignGroupTier (some e) none = some e := by
  refine ⟨assignGroupTier_eq e d, computeAverageRating_eq_none _, rfl, ?_⟩
  unfold assignGroupTier
  by_cases hc : e.type = some "cta" <;> simp [hc]

theorem stableInsert_all (x : Group) (hx : x.id = "all") (ys : List Group) :
    stableInsert groupCompare x ys = x :: ys := by
  cases ys with
  | nil => rfl
  | cons y ys => simp [stableInsert, groupCompare, hx]

theorem stableInsert_other (x : Group) (hx : x.id ≠ "all") (as ns : List Group)
    (has : ∀ a ∈ as, a.id = "all") (hns : ∀ n ∈ ns, n.id ≠ "all") :
    stableInsert groupCompare x (as ++ ns) = as ++ x :: ns := by
  induction as with
  | nil =>
    cases ns with
    | nil => rfl
    | cons n ns =>
      have hn : n.id ≠ "all" := hns n (List.mem_cons_self _ _)
      simp [stableInsert, groupCompare, hx, hn]
  | cons a as ih =>
    have ha : a.id = "all" := has a (List.mem_cons_self _ _)
    have ih2 := ih (fun b hb => has b (List.mem_cons_of_mem _ hb))
    simp [stableInsert, groupCompare, hx, ha, ih2]

theorem stableSort_groupCompare (gs : List Group) :
    stableSort groupCompare gs =
      gs.filter (fun g => g.id == "all") ++ gs.filter (fun g => g.id != "all") := by
  induction gs with
  | nil => rfl
  | cons g gs ih =>
    simp only [stableSort, ih]
    by_cases hg : g.id = "all"
    · rw [stableInsert_all g hg]
      simp [List.filter_cons, hg]
    · rw [stableInsert_other g hg]
      · simp [List.filter_cons, hg]
      · intro a ha
        simpa using (List.mem_filter.mp ha).2
      · intro n hn
        simpa using (List.mem_filter.mp hn).2

theorem filter_all_of_nodup (gs : List Group) (hnd : (gs.map (fun g => g.id)).Nodup) :
    gs.filter (fun g => g.id == "all") = (gs.find? (fun g => g.id == "all")).toList := by
  induction gs with
  | nil => rfl
  | cons g gs ih =>
    rw [List.map_cons, List.nodup_cons] at hnd
    have hnd2 := hnd
    by_cases hg : g.id = "all"
    · have hnone : gs.filter (fun g => g.id == "all") = [] := by
        rw [List.filter_eq_nil_iff]
        intro a ha hall
        apply hnd2.1
        rw [List.mem_map]
        exact ⟨a, ha, by simpa [hg] using hall⟩
      simp [List.filter_cons, List.find?_cons, hg, hnone]
    · simpa [List.filter_cons, List.find?_cons, hg] using ih hnd2.2

theorem filter_notAll_of_find_none (gs : List Group)
    (hf : gs.find? (fun g => g.id == "all") = none) :
    gs.filter (fun g => g.id != "all") = gs := by
  rw [List.find?_eq_none] at hf
  rw [List.filter_eq_self]
  intro a ha
  simpa using hf a ha

theorem filter_all_filter_notAll (gs : List Group) :
    (gs.filter (fun g => g.id != "all")).filter (fun g => g.id == "all") = [] := by
  rw [List.filter_eq_nil_iff]
  intro a ha
  simpa using (List.mem_filter.mp ha).2

/-- C3: `buildGroupList` is empty when the division declares no groups; when it
declares at least one group and the group ids are unique, the result starts with
a group of id "all" (the declared one when there is one, else the injected one),
no other element has that id, and the rest are the declared groups other than
"all", labels included, in declared order. -/
theorem buildGroupList_spec (d : Division) :
    (declaresGroups d = false → buildGroupList (some d) = []) ∧
    (declaresGroups d = true → ((groupsOf d).map (fun g => g.id)).Nodup →
      ∃ first : Group,
        first.id = "all" ∧
        first = ((groupsOf d).find? (fun g => g.id == "all")).getD ⟨"all", "Все"⟩ ∧
        buildGroupList (some d) = first :: (groupsOf d).filter (fun g => g.id != "all") ∧
        ((buildGroupList (some d)).filter (fun g => g.id == "all")).length = 1) := by
  unfold declaresGroups groupsOf buildGroupList
  rcases d with ⟨id, title, subtitle, defaultGroup, groups, thresholds, entries⟩
  rcases groups with _ | ⟨_ | ⟨g, gs⟩⟩
  · simp
  · simp
  · simp only [Option.getD_some, List.length_cons, Nat.succ_ne_zero, if_false]
    refine ⟨by simp, fun _ hnd => ?_⟩
    have hmap : (g :: gs).map (fun group => ({ group with } : Group)) = g :: gs := by
      simp
    rw [hmap, stableSort_groupCompare, filter_all_of_nodup _ hnd]
    cases hf : (g :: gs).find? (fun g => g.id == "all") with
    | none =>
      have hany : (g :: gs).any (fun group => group.id == "all") = false := by
        rw [List.find?_eq_none] at hf
        simpa using hf
      have hrest := filter_notAll_of_find_none _ hf
      have hone : ((⟨"all", "Все"⟩ : Group) :: (g :: gs)).filter (fun g => g.id == "all")
          = [⟨"all", "Все"⟩] := by
        rw [List.filter_cons]
        rw [← hrest, filter_all_filter_notAll]
        rfl
      refine ⟨⟨"all", "Все"⟩, rfl, rfl, ?_, ?_⟩
      · simp only [hany, hrest]; rfl
      · simp only [hany]
        simp only [Bool.not_false, if_true, hone, List.length_singleton]
    | some a =>
      have ha : a.id = "all" := by simpa using List.find?_some hf
      have hany : (g :: gs).any (fun group => group.id == "all") = true := by
        rw [List.any_eq_true]
        exact ⟨a, List.mem_of_find?_eq_some hf, by simpa using ha⟩
      have hone : (a :: (g :: gs).filter (fun g => g.id != "all")).filter
          (fun g => g.id == "all") = [a] := by
        rw [List.filter_cons, filter_all_filter_notAll]
        simp [ha]
      refine ⟨a, ha, rfl, ?_, ?_⟩
      · simp [hany]
      · simp only [hany, Bool.not_true, Bool.false_eq_true, if_false, Option.toList,
          List.singleton_append, hone, List.length_singleton]

/-- C4 as stated fails: in a division with groups and under the group "silver",
`matchesGroup` returns false for a null entry, and for an entry object whose
tier property holds a value that is not a string, although neither has an
assigned tier. -/
theorem matchesGroup_without_tier_false :
    matchesGroup none (.str "silver") true = false ∧
    matchesGroup (some { tier := some .other }) (.str "silver") true = false := by
  constructor <;> decide

/-- C4, amended: `matchesGroup` is true whenever the division has no groups, or
the group id is unset (undefined or empty) or "all"; in the remaining cases it
is false for an entry that is null or not an object, true for an entry object
without a tier property or with tier "all", and otherwise true exactly when the
entry's tier is a string equal to the group id. -/
theorem matchesGroup_spec (entry : Option Entry) (groupId : JsSelection) (hasGroups : Bool) :
    matchesGroup entry groupId hasGroups =
      if hasGroups = false ∨ groupId = .undefined ∨ groupId = .str ""
          ∨ groupId = .str "all" then true
      else
        match entry with
        | none => false
        | some e =>
          match e.tier with
          | none => true
          | some (.str t) => decide (t = "all" ∨ groupId = .str t)
          | some .other => false := by
  unfold matchesGroup
  cases hasGroups
  · simp
  · rcases groupId with _ | g | _
    · simp [JsSelection.truthy]
    · by_cases h1 : g = ""
      · simp [JsSelection.truthy, h1]
      · by_cases h2 : g = "all"
        · simp [JsSelection.truthy, h2]
        · cases entry with
          | none => simp [JsSelection.truthy, h1, h2]
          | some e =>
            rcases e with ⟨ty, pl, no, nt, st, tier, ti, de, ac⟩
            rcases tier with _ | ⟨t⟩ | _
            · simp [JsSelection.truthy, h1, h2]
            · by_cases h3 : t = "all"
              · simp [JsSelection.truthy, h1, h2, h3]
              · by_cases h4 : t = g
                · simp [JsSelection.truthy, h1, h2, h3, h4, tierStrictEq]
                · have h5 : ¬ g = t := fun h => h4 h.symm
                  simp [JsSelection.truthy, h1, h2, h3, h4, h5, tierStrictEq]
            · simp [JsSelection.truthy, h1, h2, tierStrictEq]
    · cases entry with
      | none => simp [JsSelection.truthy]
      | some e =>
        rcases e with ⟨ty, pl, no, nt, st, tier, ti, de, ac⟩
        rcases tier with _ | ⟨t⟩ | _
        · simp [JsSelection.truthy]
        · by_cases h3 : t = "all"
          · simp [JsSelection.truthy, h3]
          · simp [JsSelection.truthy, h3, tierStrictEq]
        · simp [JsSelection.truthy, tierStrictEq]

theorem isCta_eq_typeIsCta (entry : Option Entry) : isCta entry = typeIsCta entry := by
  cases entry with
  | none => rfl
  | some e => by_cases h : e.type = some "cta" <;> simp [isCta, typeIsCta, h]

theorem foldl_split (l teams ctas : List (Option Entry)) :
    l.foldl
      (fun (acc : List (Option Entry) × List (Option Entry)) entry =>
        if isCta entry then (acc.1, acc.2 ++ [entry]) else (acc.1 ++ [entry], acc.2))
      (teams, ctas) =
    (teams ++ l.filter (fun x => !typeIsCta x), ctas ++ l.filter typeIsCta) := by
  simp only [isCta_eq_typeIsCta]
  induction l generalizing teams ctas with
  | nil => simp
  | cons x xs ih =>
    rw [List.foldl_cons]
    by_cases hx : typeIsCta x = true
    · simp [hx, ih, List.filter_cons]
    · simp [hx, ih, List.filter_cons]

theorem splitEntries_eq (state : State) (division : Division) :
    splitEntries state division =
      ((filteredEntries state division).filter (fun x => !typeIsCta x),
       (filteredEntries state division).filter typeIsCta) := by
  have hgroups : (match division.groups with
      | some gs => decide (gs.length > 0)
      | none => false) = declaresGroups division := by
    unfold declaresGroups
    rcases division.groups with _ | ⟨_ | ⟨g, gs⟩⟩ <;> simp
  have hentries : (match division.entries with
      | some es => es
      | none => []) = division.entries.getD [] := by
    cases division.entries <;> rfl
  unfold splitEntries
  simp only [hgroups, hentries]
  rw [foldl_split]
  simp [filteredEntries]

/-- C5: with F the division's entries after tier assignment (applied only when
the division has groups) restricted to those matching the active group, the
teams of `splitEntries` are exactly the entries of F whose type is not "cta" and
its ctas exactly those whose type is "cta", both in entry order; together the
two lists hold the elements of F and nothing else, and no entry is in both. -/
theorem splitEntries_spec (state : State) (division : Division) :
    (splitEntries state division).1
        = (filteredEntries state division).filter (fun x => !typeIsCta x) ∧
    (splitEntries state division).2 = (filteredEntries state division).filter typeIsCta ∧
    ((splitEntries state division).1 ++ (splitEntries state division).2).Perm
        (filteredEntries state division) ∧
    (∀ x, x ∈ (splitEntries state division).1 → x ∉ (splitEntries state division).2) := by
  rw [splitEntries_eq]
  refine ⟨rfl, rfl, ?_, ?_⟩
  · exact (List.perm_append_comm).trans (List.filter_append_perm _ _)
  · intro x h1 h2
    have a := (List.mem_filter.mp h1).2
    have b := (List.mem_filter.mp h2).2
    simp [b] at a

theorem assignGroupTier_idem (x : Option Entry) (d : Division) :
    assignGroupTier (assignGroupTier x (some d)) (some d) = assignGroupTier x (some d) := by
  cases x with
  | none => rfl
  | some y =>
    rw [assignGroupTier_eq y d]
    cases hgold : goldThreshold d with
    | none => simp only []; rw [assignGroupTier_eq, hgold]
    | some gold =>
      cases haverage : computeAverageRating (playersOf y) with
      | none => simp only []; rw [assignGroupTier_eq, hgold, haverage]
      | some average =>
        simp only []
        split
        · next h => rw [assignGroupTier_eq, hgold, haverage]; simp only [h, if_true]
        · next h =>
          rw [assignGroupTier_eq, hgold]
          simp only [playersOf] at h haverage ⊢
          simp only [haverage, h, if_false]

/-- C6 as stated fails: in a division with groups and gold threshold
5000000000000000, the team rated 10000000000000000 and 1 has a mean rating,
5000000000000000.5, strictly greater than the threshold, yet it is absent from
the teams under the "gold" tab and listed, carrying tier "silver", under the
"silver" tab: its computed average equals the threshold. -/
theorem splitEntries_large_team_silver :
    declaresGroups largeDivision = true ∧
    some largeTeam ∈ largeDivision.entries.getD [] ∧
    largeTeam.type ≠ some "cta" ∧
    exactMean (definedRatings (playersOf largeTeam)) = some (10000000000000001 / 2) ∧
    (goldThreshold largeDivision).bind JsNumber.value = some 5000000000000000 ∧
    (5000000000000000 : ℚ) < 10000000000000001 / 2 ∧
    (splitEntries (tabState "gold") largeDivision).1 = [] ∧
    (splitEntries (tabState "silver") largeDivision).1
      = [some { largeTeam with tier := some (.str "silver") }] := by
  refine ⟨by decide, by decide, by decide, exactMean_largeTeam.2.1, exactMean_largeTeam.2.2,
    by norm_num, by decide, by decide⟩

/-- C6, amended: in a division that declares groups and has a numeric gold
threshold, a team entry whose average as `computeAverageRating` returns it (the
rounded double) is strictly greater than the threshold is listed among the
teams, carrying tier "gold", when the active group is "gold" or "all", and
neither it nor its gold-tier copy is listed in teams or ctas when the active
group is "silver". -/
theorem splitEntries_gold (state : State) (d : Division) (e : Entry)
    (gold average : JsNumber)
    (hgroups : declaresGroups d = true) (hgold : goldThreshold d = some gold)
    (hmem : some e ∈ d.entries.getD []) (hteam : e.type ≠ some "cta")
    (haverage : computeAverageRating (playersOf e) = some average)
    (hgt : jsGt average gold = true) :
    ((lookupGroup state.activeGroup d.id = .str "gold"
        ∨ lookupGroup state.activeGroup d.id = .str "all") →
      some { e with tier := some (.str "gold") } ∈ (splitEntries state d).1) ∧
    (lookupGroup state.activeGroup d.id = .str "silver" →
      some { e with tier := some (.str "gold") } ∉ (splitEntries state d).1 ∧
      some { e with tier := some (.str "gold") } ∉ (splitEntries state d).2 ∧
      some e ∉ (splitEntries state d).1 ∧ some e ∉ (splitEntries state d).2) := by
  have hassign : assignGroupTier (some e) (some d)
      = some { e with tier := some (.str "gold") } := by
    rw [assignGroupTier_eq, hgold, haverage]
    simp [hteam, hgroups, hgt]
  have hmatch : ∀ x, x ∈ filteredEntries state d →
      matchesGroup x (lookupGroup state.activeGroup d.id) true = true ∧
      assignGroupTier x (some d) = x := by
    intro x hx
    simp only [filteredEntries, hgroups, if_true] at hx
    obtain ⟨hx1, hx2⟩ := List.mem_filter.mp hx
    refine ⟨hx2, ?_⟩
    obtain ⟨y, _, rfl⟩ := List.mem_map.mp hx1
    exact assignGroupTier_idem y d
  rw [splitEntries_eq]
  refine ⟨fun hact => ?_, fun hact => ?_⟩
  · rw [List.mem_filter]
    refine ⟨?_, by simp [typeIsCta, hteam]⟩
    simp only [filteredEntries, hgroups, if_true]
    rw [List.mem_filter]
    refine ⟨?_, ?_⟩
    · rw [← hassign]
      exact List.mem_map.mpr ⟨some e, hmem, rfl⟩
    · rcases hact with h | h <;>
        simp [h, matchesGroup, JsSelection.truthy, tierStrictEq]
  · have hno1 : some { e with tier := some (.str "gold") } ∉ filteredEntries state d := by
      intro hx
      have := (hmatch _ hx).1
      simp [hact, matchesGroup, JsSelection.truthy, tierStrictEq] at this
    have hno2 : some e ∉ filteredEntries state d := by
      intro hx
      have h2 := (hmatch _ hx).2
      rw [hassign] at h2
      rw [← h2] at hx
      exact hno1 hx
    refine ⟨?_, ?_, ?_, ?_⟩ <;> intro hx <;>
      first
        | exact hno1 (List.mem_filter.mp hx).1
        | exact hno2 (List.mem_filter.mp hx).1

/-- Witness for C3: a division without groups, and `exampleDivision`. -/
theorem buildGroupList_spec_witness :
    buildGroupList (some plainDivision) = [] ∧
    ∃ first : Group,
      first.id = "all" ∧
      first = ((groupsOf exampleDivision).find? (fun g => g.id == "all")).getD ⟨"all", "Все"⟩ ∧
      buildGroupList (some exampleDivision)
        = first :: (groupsOf exampleDivision).filter (fun g => g.id != "all") ∧
      ((buildGroupList (some exampleDivision)).filter (fun g => g.id == "all")).length = 1 :=
  ⟨(buildGroupList_spec plainDivision).1 (by decide),
   (buildGroupList_spec exampleDivision).2 (by decide) (by decide)⟩

/-- Witness for C6: the team rated 1.7 and 4.9, whose computed average
3.3000000000000003 is greater than the threshold 3.3, under the "gold" tab and
under the "silver" tab. -/
theorem splitEntries_gold_witness :
    computeAverageRating (playersOf closeTeam) = some (.finite 7430939385161319 (-51)) ∧
    goldThreshold closeDivision = some (.finite 7430939385161318 (-51)) ∧
    some { closeTeam with tier := some (.str "gold") }
        ∈ (splitEntries (tabState "gold") closeDivision).1 ∧
    some { closeTeam with tier := some (.str "gold") }
        ∉ (splitEntries (tabState "silver") closeDivision).1 :=
  have haverage : computeAverageRating (playersOf closeTeam)
      = some (.finite 7430939385161319 (-51)) := by decide
  have hgold : goldThreshold closeDivision = some (.finite 7430939385161318 (-51)) := by
    decide
  have hgt : jsGt (.finite 7430939385161319 (-51)) (.finite 7430939385161318 (-51)) = true := by
    decide
  ⟨haverage, hgold,
   (splitEntries_gold (tabState "gold") closeDivision closeTeam
      (.finite 7430939385161318 (-51)) (.finite 7430939385161319 (-51)) (by decide) hgold
      (by simp [closeDivision]) (by decide) haverage hgt).1 (Or.inl (by decide)),
   ((splitEntries_gold (tabState "silver") closeDivision closeTeam
      (.finite 7430939385161318 (-51)) (.finite 7430939385161319 (-51)) (by decide) hgold
      (by simp [closeDivision]) (by decide) haverage hgt).2 (by decide)).1⟩


/-! ## Theorems: tab and panel state -/

theorem setKey_apply (m : String → Option String) (d g k : String) :
    setKey m d g k = if d = "__proto__" then m k else if k = d then some g else m k := by
  unfold setKey
  by_cases hd : d = "__proto__" <;> simp [hd]

theorem lookupGroup_congr (m1 m2 : String → Option String) (k : String) (h : m1 k = m2 k) :
    lookupGroup m1 k = lookupGroup m2 k := by
  unfold lookupGroup
  rw [h]

theorem lookupGroup_of_some (m : String → Option String) (k g : String) (h : m k = some g) :
    lookupGroup m k = .str g := by
  unfold lookupGroup
  rw [h]

theorem lookupGroup_truthy_of_truthy (m : String → Option String) (k : String)
    (hk : truthy (m k) = true) : (lookupGroup m k).truthy = true := by
  unfold lookupGroup
  cases h : m k with
  | none => rw [h] at hk; exact absurd hk (by simp [truthy])
  | some g => rw [h] at hk; simpa [JsSelection.truthy, truthy] using hk

theorem truthy_false_of_lookupGroup (m : String → Option String) (k : String)
    (hk : (lookupGroup m k).truthy = false) : truthy (m k) = false := by
  cases h : truthy (m k) with
  | false => rfl
  | true => rw [lookupGroup_truthy_of_truthy m k h] at hk; exact absurd hk (by simp)

theorem seedGroup_of_truthy (m : String → Option String) (d : Division) (k : String)
    (hk : truthy (m k) = true) : seedGroup m d k = m k := by
  unfold seedGroup
  by_cases hd : (lookupGroup m d.id).truthy = true
  · simp [hd]
  · have hne : k ≠ d.id := by
      intro h
      rw [h] at hk
      exact hd (lookupGroup_truthy_of_truthy m d.id hk)
    simp [hd, setKey_apply, hne]

theorem foldl_seedGroup_of_truthy (ds : List Division) (m : String → Option String)
    (k : String) (hk : truthy (m k) = true) : ds.foldl seedGroup m k = m k := by
  induction ds generalizing m with
  | nil => rfl
  | cons d ds ih =>
    rw [List.foldl_cons, ih (seedGroup m d) (by rw [seedGroup_of_truthy m d k hk]; exact hk),
      seedGroup_of_truthy m d k hk]

theorem seedGroup_cases (m : String → Option String) (d : Division) (k : String) :
    seedGroup m d k = m k ∨
      (truthy (m k) = false ∧ d.id = k ∧ seedGroup m d k = some (initialGroup d)) := by
  unfold seedGroup
  by_cases hd : (lookupGroup m d.id).truthy = true
  · left; simp [hd]
  · by_cases hkd : k = d.id
    · by_cases hproto : d.id = "__proto__"
      · left
        have hset : setKey m d.id (initialGroup d) = m := by
          unfold setKey
          simp [hproto]
        simp [hd, hset]
      · right
        subst hkd
        have hfalse : (lookupGroup m d.id).truthy = false := by simpa using hd
        refine ⟨truthy_false_of_lookupGroup m d.id hfalse, rfl, ?_⟩
        simp [hd, setKey_apply, hproto]
    · left; simp [hd, setKey_apply, hkd]

theorem foldl_seedGroup_cases (ds : List Division) (m : String → Option String) (k : String) :
    ds.foldl seedGroup m k = m k ∨
      (truthy (m k) = false ∧
        ∃ d ∈ ds, d.id = k ∧ ds.foldl seedGroup m k = some (initialGroup d)) := by
  induction ds generalizing m with
  | nil => left; rfl
  | cons d ds ih =>
    rw [List.foldl_cons]
    rcases ih (seedGroup m d) with h | ⟨hf, d2, hd2, hid, hval⟩
    · rcases seedGroup_cases m d k with h2 | ⟨hf, hid, hval⟩
      · left; rw [h, h2]
      · right
        exact ⟨hf, d, List.mem_cons_self _ _, hid, by rw [h, hval]⟩
    · right
      refine ⟨?_, d2, List.mem_cons_of_mem _ hd2, hid, hval⟩
      by_contra hk
      have hk2 : truthy (m k) = true := by simpa using hk
      rw [seedGroup_of_truthy m d k hk2, hk2] at hf
      exact Bool.noConfusion hf

theorem ensureActiveDivision_activeGroup (s : State) :
    (ensureActiveDivision s).activeGroup
      = (match s.data with
        | some data => divisionsOf data
        | none => []).foldl seedGroup s.activeGroup := by
  unfold ensureActiveDivision divisionsOf
  rcases s with ⟨data, active, groups⟩
  rcases data with _ | ⟨updatedAt, _ | ⟨_ | ⟨d, ds⟩⟩⟩ <;> rfl

/-- C8: `setActiveGroup(d, g)` leaves `activeDivisionId`, the data and the
selection of every division other than `d` unchanged; `setActiveDivision` leaves
the whole `activeGroup` map unchanged; `ensureActiveDivision` leaves every
selection that is already set (non-empty) unchanged, and where it changes the
map it seeds a division of the snapshot that had no selection. -/
theorem activeGroup_frame (s : State) :
    (∀ d g : String,
      (setActiveGroup s d g).activeDivisionId = s.activeDivisionId ∧
      (setActiveGroup s d g).data = s.data ∧
      ∀ d2 : String, d2 ≠ d → (setActiveGroup s d g).activeGroup d2 = s.activeGroup d2) ∧
    (∀ divisionId : String,
      (setActiveDivision s divisionId).activeGroup = s.activeGroup ∧
      (setActiveDivision s divisionId).data = s.data) ∧
    (∀ k : String, truthy (s.activeGroup k) = true →
      (ensureActiveDivision s).activeGroup k = s.activeGroup k) ∧
    (∀ k : String, (ensureActiveDivision s).activeGroup k ≠ s.activeGroup k →
      truthy (s.activeGroup k) = false ∧
      ∃ data, s.data = some data ∧ ∃ d ∈ divisionsOf data, d.id = k ∧
        (ensureActiveDivision s).activeGroup k = some (initialGroup d)) := by
  refine ⟨fun d g => ?_, fun divisionId => ?_, fun k hk => ?_, fun k hk => ?_⟩
  · unfold setActiveGroup
    by_cases h : lookupGroup s.activeGroup d = .str g
    · simp [h]
    · simp only [h, if_false, true_and]
      intro d2 hd2
      simp [setKey_apply, hd2]
  · unfold setActiveDivision
    by_cases h : s.activeDivisionId = some divisionId <;> simp [h]
  · rw [ensureActiveDivision_activeGroup]
    exact foldl_seedGroup_of_truthy _ _ _ hk
  · rw [ensureActiveDivision_activeGroup] at hk ⊢
    cases hdata : s.data with
    | none => rw [hdata] at hk; exact absurd rfl hk
    | some data =>
      rw [hdata] at hk
      rcases foldl_seedGroup_cases (divisionsOf data) s.activeGroup k with h | ⟨hf, d, hd, hid, hv⟩
      · exact absurd h hk
      · exact ⟨hf, data, rfl, d, hd, hid, hv⟩

/-- Witness for C8: on a state with "gold" selected in division "mix", a group
switch in "mix" leaves the selection of "open" alone, and `ensureActiveDivision`
keeps the "gold" selection. -/
theorem activeGroup_frame_witness :
    (setActiveGroup (exampleState "gold") "mix" "silver").activeGroup "open"
        = (exampleState "gold").activeGroup "open" ∧
    (ensureActiveDivision (exampleState "gold")).activeGroup "mix"
        = (exampleState "gold").activeGroup "mix" :=
  ⟨((activeGroup_frame (exampleState "gold")).1 "mix" "silver").2.2 "open" (by decide),
   (activeGroup_frame (exampleState "gold")).2.2.1 "mix" (by decide)⟩

theorem foldl_seedGroup_of_not_mem (ds : List Division) (m : String → Option String)
    (k : String) (hk : ∀ d ∈ ds, d.id ≠ k) : ds.foldl seedGroup m k = m k := by
  rcases foldl_seedGroup_cases ds m k with h | ⟨_, d, hd, hid, _⟩
  · exact h
  · exact absurd hid (hk d hd)

theorem lookupGroup_falsy_of_own (m : String → Option String) (k : String)
    (hown : truthy (m k) = false) (hproto : k ∉ objectPrototypeKeys) :
    (lookupGroup m k).truthy = false := by
  unfold lookupGroup
  cases h : m k with
  | none => simp [hproto, JsSelection.truthy]
  | some g => rw [h] at hown; simpa [JsSelection.truthy, truthy] using hown

theorem ne_proto_of_not_inherited (k : String) (hproto : k ∉ objectPrototypeKeys) :
    k ≠ "__proto__" := by
  intro h
  apply hproto
  rw [h]
  decide

theorem foldl_seedGroup_unique (ds : List Division) (m : String → Option String)
    (d : Division) (hd : d ∈ ds) (hnd : (ds.map (fun x => x.id)).Nodup)
    (hproto : d.id ∉ objectPrototypeKeys)
    (hm : truthy (m d.id) = false) :
    ds.foldl seedGroup m d.id = some (initialGroup d) := by
  induction ds generalizing m with
  | nil => cases hd
  | cons x xs ih =>
    rw [List.map_cons, List.nodup_cons] at hnd
    rw [List.foldl_cons]
    rcases List.mem_cons.mp hd with rfl | hmem
    · rw [foldl_seedGroup_of_not_mem]
      · have hfalsy := lookupGroup_falsy_of_own m d.id hm hproto
        simp [seedGroup, hfalsy, setKey_apply, ne_proto_of_not_inherited d.id hproto]
      · intro y hy hid
        exact hnd.1 (List.mem_map.mpr ⟨y, hy, hid⟩)
    · have hne : x.id ≠ d.id := by
        intro hid
        exact hnd.1 (List.mem_map.mpr ⟨d, hmem, hid.symm⟩)
      apply ih _ hmem hnd.2
      rcases seedGroup_cases m x d.id with h | ⟨_, hid, _⟩
      · rw [h]; exact hm
      · exact absurd hid hne

theorem initialGroup_valid (d : Division)
    (hdefault : ∀ g, d.defaultGroup = some g → g ≠ "" →
      g = "all" ∨ ∃ gr ∈ groupsOf d, gr.id = g) :
    initialGroup d = "all" ∨ ∃ g ∈ groupsOf d, initialGroup d = g.id := by
  have hfirst : (match d.groups with
      | some (first :: _) => first.id
      | _ => "all") = "all" ∨ ∃ g ∈ groupsOf d, (match d.groups with
      | some (first :: _) => first.id
      | _ => "all") = g.id := by
    unfold groupsOf
    rcases d.groups with _ | ⟨_ | ⟨g, gs⟩⟩
    · left; rfl
    · left; rfl
    · right; exact ⟨g, by simp, rfl⟩
  unfold initialGroup
  cases hdg : d.defaultGroup with
  | none => exact hfirst
  | some g =>
    by_cases hg : g = ""
    · simpa [hg] using hfirst
    · simp only [bne_iff_ne, ne_eq, hg, not_false_eq_true, if_true]
      rcases hdefault g hdg hg with h | ⟨gr, hgr, hid⟩
      · left; exact h
      · right; exact ⟨gr, hgr, hid.symm⟩

theorem mem_buildGroupList (d : Division) (g : Group) (hg : g ∈ buildGroupList (some d)) :
    g.id = "all" ∨ g ∈ groupsOf d := by
  unfold buildGroupList at hg
  unfold groupsOf
  rcases d with ⟨id, title, subtitle, defaultGroup, groups, thresholds, entries⟩
  rcases groups with _ | gs
  · simp at hg
  · simp only at hg
    have hmap : gs.map (fun group => ({ group with } : Group)) = gs := by simp
    rw [hmap] at hg
    split at hg
    · simp at hg
    · split at hg
      · rcases List.mem_cons.mp hg with rfl | h
        · left; rfl
        · right; exact h
      · rw [stableSort_groupCompare, List.mem_append] at hg
        right
        rcases hg with h | h <;> exact (List.mem_filter.mp h).1

/-- The selection invariant together with the fact that the state holds the
snapshot. -/
theorem selectionValid_renderData (data : Snapshot) (hne : divisionsOf data ≠ [])
    (huniq : uniqueDivisionIds data) (hproto : noInheritedIds data)
    (hdefault : defaultGroupsDeclared data) :
    (renderData initialState data).data = some data ∧
      selectionValid data (renderData initialState data) := by
  unfold renderData
  refine ⟨?_, ?_, ?_⟩
  · unfold ensureActiveDivision initialState divisionsOf at *
    rcases data with ⟨updatedAt, _ | ⟨_ | ⟨d, ds⟩⟩⟩ <;> simp at hne ⊢
  · unfold ensureActiveDivision initialState divisionsOf at *
    rcases data with ⟨updatedAt, _ | ⟨_ | ⟨d, ds⟩⟩⟩
    · simp at hne
    · simp at hne
    · exact ⟨d, by simp, by simp [truthy]⟩
  · intro d hd
    have hseed : (ensureActiveDivision { initialState with data := some data }).activeGroup d.id
        = some (initialGroup d) := by
      rw [ensureActiveDivision_activeGroup]
      simp only [initialState]
      exact foldl_seedGroup_unique _ (fun _ => none) d hd huniq (hproto d hd) rfl
    rw [lookupGroup_of_some _ _ _ hseed]
    rcases initialGroup_valid d (hdefault d hd) with h | ⟨g, hg, hid⟩
    · left; rw [h]
    · right; exact ⟨g, hg, by rw [hid]⟩

theorem selectionValid_click (data : Snapshot) (huniq : uniqueDivisionIds data)
    (hproto : noInheritedIds data) (s : State)
    (c : Click) (hdata : s.data = some data) (hvalid : selectionValid data s) :
    (click s c).data = some data ∧ selectionValid data (click s c) := by
  cases c with
  | divisionTab index =>
    simp only [click]
    cases hh : (divisionTabHandlers s)[index]? with
    | none => exact ⟨hdata, hvalid⟩
    | some divisionId =>
      simp only
      have hmem : divisionId ∈ divisionTabHandlers s := List.getElem?_mem hh
      have hmem2 : ∃ d ∈ divisionsOf data, d.id = divisionId := by
        unfold divisionTabHandlers at hmem
        rw [hdata] at hmem
        unfold divisionsOf
        rcases data with ⟨updatedAt, _ | ds⟩
        · simp at hmem
        · simpa using hmem
      unfold setActiveDivision
      by_cases hact : s.activeDivisionId = some divisionId
      · simp only [hact, if_true]; exact ⟨hdata, hvalid⟩
      · simp only [hact, if_false]
        refine ⟨hdata, ?_, hvalid.2⟩
        obtain ⟨d, hd, hid⟩ := hmem2
        exact ⟨d, hd, by simp [hid]⟩
  | groupTab index =>
    simp only [click]
    cases hh : (groupTabHandlers s)[index]? with
    | none => exact ⟨hdata, hvalid⟩
    | some pair =>
      obtain ⟨divisionId, groupId⟩ := pair
      simp only
      have hmem : (divisionId, groupId) ∈ groupTabHandlers s := List.getElem?_mem hh
      unfold groupTabHandlers at hmem
      cases hact : activeDivision s with
      | none => rw [hact] at hmem; simp at hmem
      | some division =>
        rw [hact] at hmem
        simp only [List.mem_map, Prod.mk.injEq] at hmem
        obtain ⟨g, hg, hid, hgid⟩ := hmem
        have hdiv : division ∈ divisionsOf data := by
          unfold activeDivision at hact
          rw [hdata] at hact
          unfold divisionsOf
          rcases data with ⟨updatedAt, _ | ds⟩
          · simp at hact
          · simp only at hact
            split at hact
            · cases hact
            · exact List.mem_of_find?_eq_some hact
        unfold setActiveGroup
        by_cases hsame : lookupGroup s.activeGroup divisionId = .str groupId
        · simp only [hsame, if_true]; exact ⟨hdata, hvalid⟩
        · simp only [hsame, if_false]
          refine ⟨hdata, hvalid.1, ?_⟩
          intro d hd
          by_cases hkey : d.id = divisionId
          · have hdd : d = division :=
              List.inj_on_of_nodup_map huniq hd hdiv (by rw [hkey, hid])
            subst hdd
            have hnp : divisionId ≠ "__proto__" := by
              rw [← hkey]
              exact ne_proto_of_not_inherited d.id (hproto d hd)
            have hown : setKey s.activeGroup divisionId groupId d.id = some groupId := by
              simp [setKey_apply, hnp, hkey]
            rw [lookupGroup_of_some _ _ _ hown]
            rcases mem_buildGroupList d g hg with h | h
            · left; rw [← hgid, h]
            · right; exact ⟨g, h, by rw [hgid]⟩
          · have hown : setKey s.activeGroup divisionId groupId d.id = s.activeGroup d.id := by
              simp [setKey_apply, hkey]
            rw [lookupGroup_congr _ _ _ hown]
            exact hvalid.2 d hd

theorem selectionValid_clicks (data : Snapshot) (huniq : uniqueDivisionIds data)
    (hproto : noInheritedIds data)
    (cs : List Click) (s : State) (hdata : s.data = some data)
    (hvalid : selectionValid data s) :
    (clicks s cs).data = some data ∧ selectionValid data (clicks s cs) := by
  induction cs generalizing s with
  | nil => exact ⟨hdata, hvalid⟩
  | cons c cs ih =>
    obtain ⟨h1, h2⟩ := selectionValid_click data huniq hproto s c hdata hvalid
    exact ih (click s c) h1 h2

/-- A division whose id is "constructor" is never seeded: the lookup in
`state.activeGroup` finds the inherited member, which is truthy, so the object
gets no own property and the selection is neither "all" nor a declared group,
although the division's default group is declared. -/
theorem selectionValid_fails_inheritedId :
    uniqueDivisionIds inheritedIdSnapshot ∧
    defaultGroupsDeclared inheritedIdSnapshot ∧
    (renderData initialState inheritedIdSnapshot).activeGroup "constructor" = none ∧
    lookupGroup (renderData initialState inheritedIdSnapshot).activeGroup "constructor"
      = .inherited ∧
    ¬ selectionValid inheritedIdSnapshot (renderData initialState inheritedIdSnapshot) := by
  refine ⟨by decide, ?_, by decide, by decide, by decide⟩
  simp [defaultGroupsDeclared, divisionsOf, inheritedIdSnapshot, groupsOf]

/-- C7 as stated fails: a snapshot whose division names the default group
"bronze", which it does not declare, is loaded into a state where that
division's selection is "bronze", neither "all" nor a declared group. -/
theorem selectionValid_fails_strayDefault :
    divisionsOf strayDefaultSnapshot ≠ [] ∧
    (renderData initialState strayDefaultSnapshot).activeGroup "mix" = some "bronze" ∧
    lookupGroup (renderData initialState strayDefaultSnapshot).activeGroup "mix"
      = .str "bronze" ∧
    ¬ selectionValid strayDefaultSnapshot
        (clicks (renderData initialState strayDefaultSnapshot) []) := by
  refine ⟨by decide, by decide, by decide, by decide⟩

/-- C7, amended: for a snapshot with at least one division, unique division ids,
no division id that names a property inherited from `Object.prototype` (such as
"constructor") and every non-empty `defaultGroup` equal to "all" or a declared
group of its division, every state reached by loading it and then clicking
division tabs and group tabs in any order has an active division that is a
division of the snapshot and, for every division, a selected group that is "all"
or a group the division declares. -/
theorem selectionValid_reachable (data : Snapshot) (cs : List Click)
    (hne : divisionsOf data ≠ []) (huniq : uniqueDivisionIds data)
    (hproto : noInheritedIds data) (hdefault : defaultGroupsDeclared data) :
    selectionValid data (clicks (renderData initialState data) cs) := by
  obtain ⟨h1, h2⟩ := selectionValid_renderData data hne huniq hproto hdefault
  exact (selectionValid_clicks data huniq hproto cs _ h1 h2).2

/-- Witness for C7 amended: `exampleSnapshot`, after switching to the second
division and back and choosing the second group tab. -/
theorem selectionValid_reachable_witness :
    selectionValid exampleSnapshot
      (clicks (renderData initialState exampleSnapshot)
        [.divisionTab 1, .divisionTab 0, .groupTab 2]) :=
  selectionValid_reachable exampleSnapshot [.divisionTab 1, .divisionTab 0, .groupTab 2]
    (by decide) (by decide) (by decide)
    (by simp [defaultGroupsDeclared, divisionsOf, exampleSnapshot,
      exampleDivision, plainDivision])


/-! ## Theorems: card rendering -/

theorem everyLacksPhoto_objects (ps : List Player) :
    everyLacksPhoto (ps.map some) = .ok (ps.all lacksPhoto) := by
  induction ps with
  | nil => rfl
  | cons p ps ih =>
    simp only [List.map_cons, everyLacksPhoto, List.all_cons, lacksPhoto]
    by_cases hp : truthy p.photo = true
    · simp [hp]
    · simp only [hp, Bool.false_eq_true, if_false, ih]
      simp [lacksPhoto, hp]

theorem hintStep_eq (given : List String) (ps : List Player) :
    ((if (ps.map some).length = 0 then (.ok false : Except String Bool)
      else .ok (ps.all lacksPhoto)).bind
      fun allMissing =>
        let missingPhotosHint : Option String :=
          if allMissing then some missingPhotosHintText else none
        match missingPhotosHint with
        | some hint =>
          if !given.contains hint then (.ok (given ++ [hint]) : Except String (List String))
          else .ok given
        | none => .ok given) =
    .ok (if ps ≠ [] ∧ (∀ p ∈ ps, lacksPhoto p = true) ∧ missingPhotosHintText ∉ given then
      given ++ [missingPhotosHintText] else given) := by
  cases ps with
  | nil => simp [Except.bind]
  | cons p ps =>
    have hne : ((p :: ps).map some).length ≠ 0 := by simp
    have hne2 : p :: ps ≠ [] := by simp
    simp only [hne, if_false, Except.bind, hne2, ne_eq, not_false_eq_true, true_and]
    by_cases hall : (p :: ps).all lacksPhoto = true
    · have hall2 : ∀ q ∈ p :: ps, lacksPhoto q = true := by simpa using hall
      by_cases hin : missingPhotosHintText ∈ given
      · have hc : given.contains missingPhotosHintText = true := by simpa using hin
        simp only [hall, if_true, hc, Bool.not_true, Bool.false_eq_true, if_false]
        rw [if_neg]
        exact fun h => h.2 hin
      · have hc : given.contains missingPhotosHintText = false := by simpa using hin
        simp only [hall, if_true, hc, Bool.not_false]
        rw [if_pos ⟨hall2, hin⟩]
    · have hall2 : ¬ ∀ q ∈ p :: ps, lacksPhoto q = true := by simpa using hall
      have hall3 : (p :: ps).all lacksPhoto = false := by simpa using hall
      simp only [hall3, Bool.false_eq_true, if_false]
      rw [if_neg]
      exact fun h => hall2 h.1

theorem footerStatuses_objects (e : Entry) (ps : List Player) :
    footerStatuses e (ps.map some) = .ok (displayedStatuses e ps) := by
  have hst : (match e.statuses with
      | some ss => ss.filter (fun status => status != "")
      | none => []) = (e.statuses.getD []).filter (fun status => status != "") := by
    cases e.statuses <;> rfl
  unfold footerStatuses displayedStatuses
  simp only [hst, everyLacksPhoto_objects]
  exact hintStep_eq _ ps

theorem foldl_appendChild {α : Type} (f : α → Node) (l : List α) (tag cls txt : String)
    (attrs : List (String × String)) (cs : List Node) :
    l.foldl (fun (node : Node) x => node.appendChild (f x)) (Node.mk tag cls txt attrs cs)
      = Node.mk tag cls txt attrs (cs ++ l.map f) := by
  induction l generalizing cs with
  | nil => simp
  | cons x xs ih =>
    simp only [List.foldl_cons, List.map_cons]
    have hstep : (Node.mk tag cls txt attrs cs).appendChild (f x)
        = Node.mk tag cls txt attrs (cs ++ [f x]) := rfl
    rw [hstep, ih]
    simp

theorem textContent_createEl (tag cls txt : String) (attrs : List (String × Option String)) :
    (createEl tag cls txt attrs).textContent = txt := rfl

/-- C9: for a team entry and its players (objects), the status list
`renderStatusFooter` displays is the entry's non-empty statuses in order,
followed by the photo hint exactly when there is at least one player, every
player lacks a photo and the hint is not already listed; the footer is absent
exactly when that list is empty, otherwise the first element is the inline item
and the remaining elements, in order, are the items of the expandable list. -/
theorem renderStatusFooter_spec (e : Entry) (ps : List Player) :
    match displayedStatuses e ps with
    | [] => renderStatusFooter e (ps.map some) = .ok none
    | first :: rest =>
      ∃ footer : Node,
        renderStatusFooter e (ps.map some) = .ok (some footer) ∧
        footerInlineItem footer = some first ∧
        footerExtraItems footer = rest := by
  unfold renderStatusFooter
  rw [footerStatuses_objects]
  cases displayedStatuses e ps with
  | nil => rfl
  | cons first rest =>
    simp only [Except.bind]
    cases rest with
    | nil =>
      simp only [List.length_nil, gt_iff_lt, lt_self_iff_false, if_false]
      refine ⟨_, rfl, ?_, ?_⟩
      · simp [footerInlineItem, Node.childWithClass, Node.appendChild, createEl,
          Node.children, Node.className, Node.textContent]
      · simp [footerExtraItems, Node.childWithClass, Node.appendChild, createEl,
          Node.children, Node.className]
    | cons second more =>
      have hfold : List.foldl
          (fun (node : Node) status =>
            node.appendChild (createEl "div" "status-list__extra-item" status []))
          (createEl "div" "status-list__extra" "" [("aria-hidden", some "true")])
          (second :: more)
          = Node.mk "div" "status-list__extra" "" [("aria-hidden", "true")]
              ((second :: more).map
                (fun status => createEl "div" "status-list__extra-item" status [])) := by
        have hnode : createEl "div" "status-list__extra" "" [("aria-hidden", some "true")]
            = Node.mk "div" "status-list__extra" "" [("aria-hidden", "true")] [] := rfl
        rw [hnode, foldl_appendChild]
        simp
      simp only [List.length_cons, gt_iff_lt, Nat.zero_lt_succ, if_true, hfold]
      refine ⟨_, rfl, ?_, ?_⟩
      · simp [footerInlineItem, Node.childWithClass, Node.appendChild, createEl,
          Node.children, Node.className, Node.textContent]
      · have htext : (Node.textContent ∘ fun status =>
            Node.mk "div" "status-list__extra-item" status [] []) = id := by
          funext status
          rfl
        simp [footerExtraItems, Node.childWithClass, Node.appendChild, createEl,
          Node.children, Node.className, Node.textContent, htext]

theorem className_appendChild (n child : Node) :
    (n.appendChild child).className = n.className := by
  cases n; rfl

theorem children_appendChild (n child : Node) :
    (n.appendChild child).children = n.children ++ [child] := by
  cases n; rfl

theorem appendChild_mk (tag cls txt : String) (attrs : List (String × String))
    (cs : List Node) (child : Node) :
    (Node.mk tag cls txt attrs cs).appendChild child
      = Node.mk tag cls txt attrs (cs ++ [child]) := rfl

theorem teamCardBody_eq (e : Entry) (players : List (Option Player)) :
    teamCardBody e players =
      Node.mk "div" "team-card__body" "" []
        (players.enum.map (fun ip => renderPlayerTile ip.2 ip.1)
          ++ (if e.type = some "solo" ∨ players.length = 1 then
                [renderEmptyTile (players.length + 1)] else [])
          ++ (if players.length = 0 then [renderEmptyTile 1, renderEmptyTile 2] else [])) := by
  unfold teamCardBody
  have hnode : createEl "div" "team-card__body" "" []
      = Node.mk "div" "team-card__body" "" [] [] := rfl
  simp only [hnode, foldl_appendChild, List.nil_append]
  by_cases h1 : e.type = some "solo" ∨ players.length = 1
  · by_cases h0 : players.length = 0
    · simp only [if_pos h1, if_pos h0, appendChild_mk, List.append_assoc,
        List.singleton_append, List.cons_append, List.nil_append]
    · simp only [if_pos h1, if_neg h0, appendChild_mk, List.append_nil]
  · by_cases h0 : players.length = 0
    · simp only [if_neg h1, if_pos h0, appendChild_mk, List.append_assoc,
        List.singleton_append, List.append_nil, List.nil_append]
    · simp only [if_neg h1, if_neg h0, List.append_nil]

theorem teamCardHeader_className (e : Entry) (players : List (Option Player)) :
    (teamCardHeader e players).className = "team-card__header" := by
  unfold teamCardHeader
  simp only [apply_ite Node.className, className_appendChild, ite_self]
  rfl

theorem renderStatusFooter_objects_ok (e : Entry) (ps : List Player) :
    ∃ footer, renderStatusFooter e (ps.map some) = .ok footer := by
  unfold renderStatusFooter
  rw [footerStatuses_objects]
  simp only [Except.bind]
  cases displayedStatuses e ps with
  | nil => exact ⟨_, rfl⟩
  | cons first rest =>
    simp only []
    split <;> exact ⟨_, rfl⟩

theorem eq_map_some_of_ne_none {α : Type} (l : List (Option α)) (h : ∀ p ∈ l, p ≠ none) :
    ∃ l2 : List α, l = l2.map some := by
  induction l with
  | nil => exact ⟨[], rfl⟩
  | cons p ps ih =>
    obtain ⟨l2, hl2⟩ := ih (fun q hq => h q (List.mem_cons_of_mem _ hq))
    cases p with
    | none => exact absurd rfl (h none (List.mem_cons_self _ _))
    | some a => exact ⟨a :: l2, by rw [hl2]; rfl⟩

theorem cardTiles_appendChild (c header body : Node) (hc : c.children = [])
    (hh : header.className = "team-card__header")
    (hb : body.className = "team-card__body") :
    cardTiles ((c.appendChild header).appendChild body) = body.children ∧
    ∀ footer, cardTiles (((c.appendChild header).appendChild body).appendChild footer)
      = body.children := by
  refine ⟨?_, fun footer => ?_⟩ <;>
    simp [cardTiles, Node.childWithClass, children_appendChild, hc, List.find?_cons, hh, hb]

theorem renderTeamCard_objects (e : Entry) (hplayers : ∀ p ∈ cardPlayers e, p ≠ none) :
    ∃ card, renderTeamCard e = .ok card ∧
      cardTiles card = (teamCardBody e (cardPlayers e)).children := by
  have hps : (match e.players with
      | some ps => ps.take 2
      | none => []) = cardPlayers e := by
    unfold cardPlayers playersOf
    cases e.players <;> rfl
  obtain ⟨ps, hmap⟩ := eq_map_some_of_ne_none _ hplayers
  obtain ⟨footer, hfooter⟩ := renderStatusFooter_objects_ok e ps
  rw [← hmap] at hfooter
  have hb : (teamCardBody e (cardPlayers e)).className = "team-card__body" := by
    rw [teamCardBody_eq]; rfl
  have htiles := cardTiles_appendChild
    (createEl "article" "team-card" ""
      [("data-state", some (if e.type = some "solo" then "semi" else "full"))])
    (teamCardHeader e (cardPlayers e)) (teamCardBody e (cardPlayers e)) rfl
    (teamCardHeader_className e (cardPlayers e)) hb
  unfold renderTeamCard
  simp only [hps, hfooter, Except.bind]
  cases footer with
  | none => exact ⟨_, rfl, htiles.1⟩
  | some f => exact ⟨_, rfl, htiles.2 f⟩

/-- C10 as stated fails: a solo entry with two players gets a card body of three
tiles, one of them an empty tile. -/
theorem renderTeamCard_soloPair_three_tiles :
    (renderTeamCard soloPair).toOption.map (fun card => (cardTiles card).length) = some 3 ∧
    (renderTeamCard soloPair).toOption.map
      (fun card => ((cardTiles card).filter isEmptyTile).length) = some 1 := by
  constructor <;> decide

/-- C10, amended: for a team entry whose rendered players (at most the first
two, all objects) number exactly one, or whose type is not "solo", the card body
holds exactly two tiles: one player tile per rendered player, in order, followed
by as many empty tiles as are needed to reach two. -/
theorem renderTeamCard_two_tiles (e : Entry)
    (hplayers : ∀ p ∈ cardPlayers e, p ≠ none)
    (htype : e.type ≠ some "solo" ∨ (cardPlayers e).length = 1) :
    ∃ card empties,
      renderTeamCard e = .ok card ∧
      cardTiles card
        = (cardPlayers e).enum.map (fun ip => renderPlayerTile ip.2 ip.1) ++ empties ∧
      (∀ tile ∈ (cardPlayers e).enum.map (fun ip => renderPlayerTile ip.2 ip.1),
        isPlayerTile tile = true) ∧
      (∀ tile ∈ empties, isEmptyTile tile = true) ∧
      empties.length = 2 - (cardPlayers e).length ∧
      (cardTiles card).length = 2 := by
  obtain ⟨card, hcard, htiles⟩ := renderTeamCard_objects e hplayers
  have hlen : (cardPlayers e).length ≤ 2 := by
    unfold cardPlayers
    simp [List.length_take]
  have hptile : ∀ tile ∈ (cardPlayers e).enum.map (fun ip => renderPlayerTile ip.2 ip.1),
      isPlayerTile tile = true := by
    intro tile ht
    obtain ⟨ip, _, rfl⟩ := List.mem_map.mp ht
    have hcls : (renderPlayerTile ip.2 ip.1).className = "player-tile" := by
      unfold renderPlayerTile
      simp only [className_appendChild]
      rfl
    simp [isPlayerTile, hcls]
  rw [teamCardBody_eq] at htiles
  simp only [Node.children, List.append_assoc] at htiles
  refine ⟨card, _, hcard, htiles, hptile, ?_, ?_, ?_⟩
  · intro tile ht
    have hempty : ∀ i, isEmptyTile (renderEmptyTile i) = true := by
      intro i
      have hcls : (renderEmptyTile i).className = "player-tile player-tile--empty" := by
        unfold renderEmptyTile
        simp only [className_appendChild]
        rfl
      simp [isEmptyTile, hcls]
    rw [List.mem_append] at ht
    rcases ht with h | h
    · split at h
      · rw [List.mem_singleton] at h; rw [h]; exact hempty _
      · cases h
    · split at h
      · simp only [List.mem_cons, List.mem_singleton, List.not_mem_nil, or_false] at h
        rcases h with h | h <;> rw [h] <;> exact hempty _
      · cases h
  · rcases htype with h | h
    · have hcases : (cardPlayers e).length = 0 ∨ (cardPlayers e).length = 1
          ∨ (cardPlayers e).length = 2 := by omega
      rcases hcases with h0 | h1 | h2
      · simp [h, h0]
      · simp [h, h1]
      · simp [h, h2]
    · simp [h]
  · rw [htiles]
    rcases htype with h | h
    · have hcases : (cardPlayers e).length = 0 ∨ (cardPlayers e).length = 1
          ∨ (cardPlayers e).length = 2 := by omega
      rcases hcases with h0 | h1 | h2
      · simp [h, h0]
      · simp [h, h1]
      · simp [h, h2]
    · simp [h]

/-- Witness for C10 amended: a non-solo entry with a single player. -/
theorem renderTeamCard_two_tiles_witness :
    ∃ card empties,
      renderTeamCard singleWithStatuses = .ok card ∧
      cardTiles card
        = (cardPlayers singleWithStatuses).enum.map (fun ip => renderPlayerTile ip.2 ip.1)
          ++ empties ∧
      (∀ tile ∈ (cardPlayers singleWithStatuses).enum.map
          (fun ip => renderPlayerTile ip.2 ip.1), isPlayerTile tile = true) ∧
      (∀ tile ∈ empties, isEmptyTile tile = true) ∧
      empties.length = 2 - (cardPlayers singleWithStatuses).length ∧
      (cardTiles card).length = 2 :=
  renderTeamCard_two_tiles singleWithStatuses (by decide) (Or.inl (by decide))

theorem tileBadge_renderPlayerTile (player : Option Player) (index : Nat) :
    tileBadge (renderPlayerTile player index) = some (slotBadge (index + 1)) := by
  unfold renderPlayerTile
  simp only []
  split <;> rfl

theorem tileBadge_renderEmptyTile (index : Nat) :
    tileBadge (renderEmptyTile index) = some (slotBadge (index + 1)) := rfl

theorem enum_map_index {α β : Type} (f : Nat → β) (l : List α) :
    l.enum.map (fun ip => f ip.1) = (List.range l.length).map f := by
  rw [← List.enum_map_fst l, List.map_map]
  rfl

theorem renderTeamCard_badges (e : Entry) (hplayers : ∀ p ∈ cardPlayers e, p ≠ none) :
    ∃ card, renderTeamCard e = .ok card ∧
      (cardTiles card).map tileBadge =
        (List.range (cardPlayers e).length).map (fun i => some (slotBadge (i + 1)))
          ++ (if e.type = some "solo" ∨ (cardPlayers e).length = 1 then
                [some (slotBadge ((cardPlayers e).length + 2))] else [])
          ++ (if (cardPlayers e).length = 0 then
                [some (slotBadge 2), some (slotBadge 3)] else []) := by
  obtain ⟨card, hcard, htiles⟩ := renderTeamCard_objects e hplayers
  refine ⟨card, hcard, ?_⟩
  rw [htiles, teamCardBody_eq]
  simp only [Node.children, List.map_append, List.map_map]
  have hplayersBadges :
      (cardPlayers e).enum.map (tileBadge ∘ fun ip => renderPlayerTile ip.2 ip.1)
        = (List.range (cardPlayers e).length).map (fun i => some (slotBadge (i + 1))) := by
    rw [← enum_map_index]
    apply List.map_congr_left
    intro ip _
    exact tileBadge_renderPlayerTile ip.2 ip.1
  rw [hplayersBadges]
  congr 1
  · congr 1
    split
    · simp [tileBadge_renderEmptyTile]
    · rfl
  · split
    · simp [tileBadge_renderEmptyTile]
    · rfl

theorem everyLacksPhoto_error_renderTeamCard (e : Entry)
    (hne : (cardPlayers e).length ≠ 0)
    (herr : everyLacksPhoto (cardPlayers e) = .error "TypeError") :
    renderTeamCard e = .error "TypeError" := by
  have hps : (match e.players with
      | some ps => ps.take 2
      | none => []) = cardPlayers e := by
    unfold cardPlayers playersOf
    cases e.players <;> rfl
  unfold renderTeamCard renderStatusFooter footerStatuses
  simp only [hps, hne, if_false, herr]
  rfl

theorem renderPlayerTile_fallbacks (player : Option Player) (index : Nat) :
    (truthy (player.bind Player.name) = false →
      tileName (renderPlayerTile player index) = some "—") ∧
    (player.bind Player.rating = none →
      tileRating (renderPlayerTile player index) = some "Рейтинг: —") ∧
    (truthy (player.bind Player.photo) = false →
      tileHasPlaceholder (renderPlayerTile player index) = true) := by
  cases player with
  | none => exact ⟨fun _ => rfl, fun _ => rfl, fun _ => rfl⟩
  | some p =>
    refine ⟨fun h => ?_, fun h => ?_, fun h => ?_⟩
    · have h2 : truthy p.name = false := h
      unfold renderPlayerTile
      simp only [h2]
      split <;> rfl
    · have h2 : p.rating = none := h
      unfold renderPlayerTile
      simp only [h2]
      split <;> rfl
    · have h2 : truthy p.photo = false := h
      unfold renderPlayerTile
      simp only [h2]
      rfl

/-- C11 fails on the code: in the card of an entry with one player the second
tile, an empty tile, carries the badge "Игрок 3", and in the card of an entry
with no players the two tiles carry "Игрок 2" and "Игрок 3"; only player tiles
carry the number of their slot. -/
theorem renderTeamCard_empty_tile_badges :
    (renderTeamCard singlePlayerEntry).toOption.map
        (fun card => (cardTiles card).map tileBadge)
      = some [some (slotBadge 1), some (slotBadge 3)] ∧
    (renderTeamCard noPlayersEntry).toOption.map
        (fun card => (cardTiles card).map tileBadge)
      = some [some (slotBadge 2), some (slotBadge 3)] := by
  constructor <;> decide

/-- C12 fails on the code: for an entry whose players array holds a null
element that `players.every` reaches, `renderTeamCard` raises a `TypeError`
instead of returning a card, although `renderPlayerTile` on that null player
shows the fallbacks (em dash name, em dash rating, placeholder). -/
theorem renderTeamCard_null_player_throws :
    renderTeamCard nullPlayerEntry = .error "TypeError" ∧
    renderTeamCard trailingNullEntry = .error "TypeError" ∧
    tileName (renderPlayerTile none 0) = some "—" ∧
    tileRating (renderPlayerTile none 0) = some "Рейтинг: —" ∧
    tileHasPlaceholder (renderPlayerTile none 0) = true := by
  refine ⟨rfl, rfl, rfl, rfl, rfl⟩

end EraLeague
